import Mathlib

/-!
# The in-memory project-tracking store (`golang-baseline/services/service.go`)

A shallow embedding of the service layer: the three entity maps of `Service`,
the create / get / list / status-update operations over them, and the
properties of those operations.

Modelling conventions.

* A Go `map[K]*V` is a `GoMap K V`: a list of entries with pairwise distinct
  keys.  A `range` loop visits the entries in the order of the list.  Go leaves
  that order unspecified, so every statement about a listing is phrased up to
  permutation (`List.Perm`) and never depends on the order chosen here.
* The maps hold pointers.  An assignment through such a pointer
  (`story.Status = status`, `story.SubTasks = subtasks`, `backlog.Stories = stories`)
  changes the stored entity, so it is modelled as an update of the map entry and
  every operation that performs one returns the new store.
* A value returned through a pointer is the entity as it is at the moment the
  operation returns.
* `uuid.New().String()` and `time.Now()` are inputs of the operation that calls
  them: one argument per call, in the order of the calls.
* `time.Time` is an instant (`Nat`); `*time.Time` is `Option Time`; Go's `int` is `Int`.
* A nil slice and an empty slice are both the empty list.
* `errors.New(msg)` is `Except.error msg`.
-/

namespace GolangBaseline

/-! ## Go maps -/

/-- A Go map: finitely many entries, no key twice. -/
structure GoMap (K V : Type) where
  entries : List (K × V)
  nodup : (entries.map Prod.fst).Nodup

namespace GoMap

variable {K V : Type}

/-- The map built by `make(map[K]V)`. -/
def empty : GoMap K V := ⟨[], List.nodup_nil⟩

/-- The keys, in iteration order. -/
def keys (m : GoMap K V) : List K := m.entries.map Prod.fst

/-- The values, in iteration order (what `for _, v := range m` visits). -/
def values (m : GoMap K V) : List V := m.entries.map Prod.snd

/-- Go's `len(m)`. -/
def len (m : GoMap K V) : Nat := m.entries.length

/-- Go's `v, exists := m[k]`: `none` when `exists` is false. -/
def lookup [DecidableEq K] (m : GoMap K V) (k : K) : Option V :=
  (m.entries.find? (fun e => decide (e.1 = k))).map Prod.snd

/-- Go's `m[k] = v`: the entry under `k` is replaced when there is one. -/
def store [DecidableEq K] (m : GoMap K V) (k : K) (v : V) : GoMap K V :=
  ⟨(k, v) :: m.entries.filter (fun e => decide (e.1 ≠ k)), by
    rw [List.map_cons, List.nodup_cons]
    refine ⟨?_, ?_⟩
    · simp [List.mem_map, List.mem_filter]
    · exact (List.filter_sublist _).map Prod.fst |>.nodup m.nodup⟩

/-- Assignments through the stored pointers: the value under each key `k` becomes
`f k v`; no key is added or removed. -/
def mapVals (m : GoMap K V) (f : K → V → V) : GoMap K V :=
  ⟨m.entries.map (fun e => (e.1, f e.1 e.2)), by
    have h : (m.entries.map (fun e => (e.1, f e.1 e.2))).map Prod.fst
        = m.entries.map Prod.fst := by
      rw [List.map_map]; rfl
    rw [h]; exact m.nodup⟩

/-- An assignment through the pointer stored under `k`. -/
def modify [DecidableEq K] (m : GoMap K V) (k : K) (f : V → V) : GoMap K V :=
  m.mapVals (fun k' v => if k' = k then f v else v)

end GoMap

/-! ## `models/models.go` -/

/-- The Go type `time.Time`, as an instant. -/
abbrev Time := Nat

/-- The Go type `Status string`. -/
abbrev Status := String

def StatusTodo : Status := "TODO"
def StatusInProgress : Status := "IN_PROGRESS"
def StatusDone : Status := "DONE"
def StatusBlocked : Status := "BLOCKED"

structure SubTask where
  ID : String
  StoryID : String
  Title : String
  Description : String
  Effort : Int
  JiraURL : String
  PIC : String
  PlanStart : Time
  PlanEnd : Time
  ActualStart : Option Time
  ActualEnd : Option Time
  Status : Status
  CreatedAt : Time
  UpdatedAt : Time
deriving DecidableEq, Repr

structure Story where
  ID : String
  BacklogID : String
  Title : String
  Description : String
  JiraURL : String
  EffortOrigin : Int
  PIC : String
  PlanStart : Time
  PlanEnd : Time
  ActualStart : Option Time
  ActualEnd : Option Time
  Status : Status
  SubTasks : List SubTask
  CreatedAt : Time
  UpdatedAt : Time
deriving DecidableEq, Repr

structure Backlog where
  ID : String
  Title : String
  Description : String
  Stories : List Story
  CreatedAt : Time
  UpdatedAt : Time
deriving DecidableEq, Repr

structure CreateBacklogRequest where
  Title : String
  Description : String
deriving DecidableEq, Repr

structure CreateStoryRequest where
  BacklogID : String
  Title : String
  Description : String
  JiraURL : String
  EffortOrigin : Int
  PIC : String
  PlanStart : Time
  PlanEnd : Time
deriving DecidableEq, Repr

structure CreateSubTaskRequest where
  StoryID : String
  Title : String
  Description : String
  Effort : Int
  JiraURL : String
  PIC : String
  PlanStart : Time
  PlanEnd : Time
deriving DecidableEq, Repr

/-! ## `services/service.go` -/

/-- The store: the three maps of the Go struct `Service` (the mutex has no state
of its own in a sequential run). -/
structure Service where
  backlogs : GoMap String Backlog
  stories : GoMap String Story
  subtasks : GoMap String SubTask

/-- The Go function `NewService`. -/
def NewService : Service := ⟨GoMap.empty, GoMap.empty, GoMap.empty⟩

/-- The loop `for _, subtask := range s.subtasks` that collects the subtasks
whose `StoryID` is `storyID` (the "Load subtasks for this story" loops). -/
def loadSubTasks (s : Service) (storyID : String) : List SubTask :=
  s.subtasks.values.filter (fun subtask => decide (subtask.StoryID = storyID))

/-- The body `story.SubTasks = subtasks` applied to one story. -/
def hydrate (s : Service) (story : Story) : Story :=
  { story with SubTasks := loadSubTasks s story.ID }

/-- The loop `for _, story := range s.stories` of `GetBacklog` and `GetAllBacklogs`,
as far as the store is concerned: every story of backlog `id` gets its `SubTasks`
assigned through the stored pointer. -/
def hydrateStored (s : Service) (id : String) : GoMap String Story :=
  s.stories.mapVals (fun _ story => if story.BacklogID = id then hydrate s story else story)

/-- The same loop, as far as the collected slice is concerned: the hydrated
copies `*story` of the stories of backlog `id`. -/
def loadStories (s : Service) (id : String) : List Story :=
  (s.stories.values.filter (fun story => decide (story.BacklogID = id))).map (hydrate s)

/-- The Go method `Service.CreateBacklog`. -/
def CreateBacklog (s : Service) (uuid : String) (now1 now2 : Time) (req : CreateBacklogRequest) :
    Service × Except String Backlog :=
  let backlog : Backlog :=
    { ID := uuid, Title := req.Title, Description := req.Description, Stories := [],
      CreatedAt := now1, UpdatedAt := now2 }
  ({ s with backlogs := s.backlogs.store backlog.ID backlog }, .ok backlog)

/-- The Go method `Service.GetBacklog`. The stored backlog and the stored stories
of that backlog are written through their pointers. -/
def GetBacklog (s : Service) (id : String) : Service × Except String Backlog :=
  match s.backlogs.lookup id with
  | none => (s, .error "backlog not found")
  | some backlog =>
    let backlog : Backlog := { backlog with Stories := loadStories s id }
    ({ s with stories := hydrateStored s id,
              backlogs := s.backlogs.modify id (fun _ => backlog) }, .ok backlog)

/-- One round of the outer loop of `GetAllBacklogs`: the stories of `backlog` are
hydrated in the store and `backlogCopy` is appended to the result. -/
def getAllBacklogsStep (acc : Service × List Backlog) (backlog : Backlog) : Service × List Backlog :=
  let stories := loadStories acc.1 backlog.ID
  ({ acc.1 with stories := hydrateStored acc.1 backlog.ID },
   acc.2 ++ [{ backlog with Stories := stories }])

/-- The Go method `Service.GetAllBacklogs`. -/
def GetAllBacklogs (s : Service) : Service × Except String (List Backlog) :=
  let r := s.backlogs.values.foldl getAllBacklogsStep (s, [])
  (r.1, .ok r.2)

/-- The Go method `Service.CreateStory`. -/
def CreateStory (s : Service) (uuid : String) (now1 now2 : Time) (req : CreateStoryRequest) :
    Service × Except String Story :=
  match s.backlogs.lookup req.BacklogID with
  | none => (s, .error "backlog not found")
  | some _ =>
    let story : Story :=
      { ID := uuid, BacklogID := req.BacklogID, Title := req.Title,
        Description := req.Description, JiraURL := req.JiraURL,
        EffortOrigin := req.EffortOrigin, PIC := req.PIC,
        PlanStart := req.PlanStart, PlanEnd := req.PlanEnd,
        ActualStart := none, ActualEnd := none,
        Status := StatusTodo, SubTasks := [],
        CreatedAt := now1, UpdatedAt := now2 }
    ({ s with stories := s.stories.store story.ID story }, .ok story)

/-- The Go method `Service.GetStory`. The stored story is written through its pointer. -/
def GetStory (s : Service) (id : String) : Service × Except String Story :=
  match s.stories.lookup id with
  | none => (s, .error "story not found")
  | some story =>
    let story : Story := { story with SubTasks := loadSubTasks s id }
    ({ s with stories := s.stories.modify id (fun _ => story) }, .ok story)

/-- The Go method `Service.GetStoriesByBacklog`. It works on copies (`storyCopy`),
so the store is not written. -/
def GetStoriesByBacklog (s : Service) (backlogID : String) : Except String (List Story) :=
  .ok ((s.stories.values.filter (fun story => decide (story.BacklogID = backlogID))).map
    (fun story => { story with SubTasks := loadSubTasks s story.ID }))

/-- The Go method `Service.CreateSubTask`. -/
def CreateSubTask (s : Service) (uuid : String) (now1 now2 : Time) (req : CreateSubTaskRequest) :
    Service × Except String SubTask :=
  match s.stories.lookup req.StoryID with
  | none => (s, .error "story not found")
  | some _ =>
    let subtask : SubTask :=
      { ID := uuid, StoryID := req.StoryID, Title := req.Title,
        Description := req.Description, Effort := req.Effort, JiraURL := req.JiraURL,
        PIC := req.PIC, PlanStart := req.PlanStart, PlanEnd := req.PlanEnd,
        ActualStart := none, ActualEnd := none,
        Status := StatusTodo, CreatedAt := now1, UpdatedAt := now2 }
    ({ s with subtasks := s.subtasks.store subtask.ID subtask }, .ok subtask)

/-- The Go method `Service.GetSubTask`. -/
def GetSubTask (s : Service) (id : String) : Except String SubTask :=
  match s.subtasks.lookup id with
  | none => .error "subtask not found"
  | some subtask => .ok subtask

/-- The Go method `Service.GetSubTasksByStory`. -/
def GetSubTasksByStory (s : Service) (storyID : String) : Except String (List SubTask) :=
  .ok (s.subtasks.values.filter (fun subtask => decide (subtask.StoryID = storyID)))

/-- The Go method `Service.UpdateBacklogStatus` (the `status` argument is not used). -/
def UpdateBacklogStatus (s : Service) (id : String) (_status : Status) (now : Time) :
    Service × Except String Unit :=
  match s.backlogs.lookup id with
  | none => (s, .error "backlog not found")
  | some backlog =>
    ({ s with backlogs := s.backlogs.modify id (fun _ => { backlog with UpdatedAt := now }) },
     .ok ())

/-- The assignments of `UpdateStoryStatus` to the story found under the id:
`now1` is the first `time.Now()` (for `UpdatedAt`), `now` the second. -/
def updateStory (story : Story) (status : Status) (now1 now : Time) : Story :=
  let story : Story := { story with Status := status, UpdatedAt := now1 }
  if status = StatusInProgress ∧ story.ActualStart = none then
    { story with ActualStart := some now }
  else if status = StatusDone ∧ story.ActualEnd = none then
    { story with ActualEnd := some now }
  else story

/-- The Go method `Service.UpdateStoryStatus`. -/
def UpdateStoryStatus (s : Service) (id : String) (status : Status) (now1 now : Time) :
    Service × Except String Unit :=
  match s.stories.lookup id with
  | none => (s, .error "story not found")
  | some story =>
    ({ s with stories := s.stories.modify id (fun _ => updateStory story status now1 now) },
     .ok ())

/-- The assignments of `UpdateSubTaskStatus` to the subtask found under the id. -/
def updateSubTask (subtask : SubTask) (status : Status) (now1 now : Time) : SubTask :=
  let subtask : SubTask := { subtask with Status := status, UpdatedAt := now1 }
  if status = StatusInProgress ∧ subtask.ActualStart = none then
    { subtask with ActualStart := some now }
  else if status = StatusDone ∧ subtask.ActualEnd = none then
    { subtask with ActualEnd := some now }
  else subtask

/-- The Go method `Service.UpdateSubTaskStatus`. -/
def UpdateSubTaskStatus (s : Service) (id : String) (status : Status) (now1 now : Time) :
    Service × Except String Unit :=
  match s.subtasks.lookup id with
  | none => (s, .error "subtask not found")
  | some subtask =>
    ({ s with subtasks := s.subtasks.modify id (fun _ => updateSubTask subtask status now1 now) },
     .ok ())

/-- The result of `GetDashboardStats`: the five entries of the Go map `stats`. -/
structure DashboardStats where
  total_backlogs : Nat
  total_stories : Nat
  total_subtasks : Nat
  story_status : GoMap Status Nat
  subtask_status : GoMap Status Nat

/-- Go's `count[status]++` on a `map[Status]int`: a missing key reads as zero. -/
def incr (count : GoMap Status Nat) (status : Status) : GoMap Status Nat :=
  count.store status ((count.lookup status).getD 0 + 1)

/-- The Go method `Service.GetDashboardStats`. -/
def GetDashboardStats (s : Service) : Except String DashboardStats :=
  .ok { total_backlogs := s.backlogs.len,
        total_stories := s.stories.len,
        total_subtasks := s.subtasks.len,
        story_status := (s.stories.values.map (fun story => story.Status)).foldl incr GoMap.empty,
        subtask_status :=
          (s.subtasks.values.map (fun subtask => subtask.Status)).foldl incr GoMap.empty }

/-! ## `handlers/handlers.go`

A handler reads the path variable and the decoded JSON body of the request, calls
one method of the store and writes one response.  The body is given as the result
of `json.NewDecoder(r.Body).Decode(&req)`: `none` when decoding fails.  The struct
tags `validate:"required"` are not interpreted by the decoder, so every value of the
request type can be the decoded body. -/

/-- The Go struct `models.UpdateStatusRequest`. -/
structure UpdateStatusRequest where
  Status : Status
deriving DecidableEq, Repr

/-- The constant `http.StatusOK`. -/
def http.StatusOK : Nat := 200
/-- The constant `http.StatusCreated`. -/
def http.StatusCreated : Nat := 201
/-- The constant `http.StatusBadRequest`. -/
def http.StatusBadRequest : Nat := 400
/-- The constant `http.StatusNotFound`. -/
def http.StatusNotFound : Nat := 404
/-- The constant `http.StatusInternalServerError`. -/
def http.StatusInternalServerError : Nat := 500

/-- The values the handlers pass as `data interface{}`. -/
inductive Data where
  | nil
  | backlog (backlog : Backlog)
  | backlogs (backlogs : List Backlog)
  | story (story : Story)
  | stories (stories : List Story)
  | subtask (subtask : SubTask)
  | subtasks (subtasks : List SubTask)
  | stats (stats : DashboardStats)
  | message (message : String)

/-- The Go struct `handlers.Response`. -/
structure Response where
  Success : Bool
  Data : Data
  Error : String

/-- What `sendResponse` writes: the status code and the encoded envelope. -/
structure HTTPResponse where
  statusCode : Nat
  body : Response

/-- The Go method `Handler.sendResponse`. -/
def sendResponse (statusCode : Nat) (success : Bool) (data : Data) (errorMsg : String) :
    HTTPResponse :=
  { statusCode := statusCode, body := { Success := success, Data := data, Error := errorMsg } }

/-- The Go method `Handler.CreateBacklog`. -/
def Handler.CreateBacklog (s : Service) (uuid : String) (now1 now2 : Time)
    (body : Option CreateBacklogRequest) : Service × HTTPResponse :=
  match body with
  | none => (s, sendResponse http.StatusBadRequest false .nil "Invalid request body")
  | some req =>
    match GolangBaseline.CreateBacklog s uuid now1 now2 req with
    | (s', .error err) => (s', sendResponse http.StatusInternalServerError false .nil err)
    | (s', .ok backlog) => (s', sendResponse http.StatusCreated true (.backlog backlog) "")

/-- The Go method `Handler.GetBacklog`. -/
def Handler.GetBacklog (s : Service) (id : String) : Service × HTTPResponse :=
  match GolangBaseline.GetBacklog s id with
  | (s', .error err) => (s', sendResponse http.StatusNotFound false .nil err)
  | (s', .ok backlog) => (s', sendResponse http.StatusOK true (.backlog backlog) "")

/-- The Go method `Handler.GetAllBacklogs`. -/
def Handler.GetAllBacklogs (s : Service) : Service × HTTPResponse :=
  match GolangBaseline.GetAllBacklogs s with
  | (s', .error err) => (s', sendResponse http.StatusInternalServerError false .nil err)
  | (s', .ok backlogs) => (s', sendResponse http.StatusOK true (.backlogs backlogs) "")

/-- The Go method `Handler.CreateStory`. -/
def Handler.CreateStory (s : Service) (uuid : String) (now1 now2 : Time)
    (body : Option CreateStoryRequest) : Service × HTTPResponse :=
  match body with
  | none => (s, sendResponse http.StatusBadRequest false .nil "Invalid request body")
  | some req =>
    match GolangBaseline.CreateStory s uuid now1 now2 req with
    | (s', .error err) => (s', sendResponse http.StatusInternalServerError false .nil err)
    | (s', .ok story) => (s', sendResponse http.StatusCreated true (.story story) "")

/-- The Go method `Handler.GetStory`. -/
def Handler.GetStory (s : Service) (id : String) : Service × HTTPResponse :=
  match GolangBaseline.GetStory s id with
  | (s', .error err) => (s', sendResponse http.StatusNotFound false .nil err)
  | (s', .ok story) => (s', sendResponse http.StatusOK true (.story story) "")

/-- The Go method `Handler.GetStoriesByBacklog`. -/
def Handler.GetStoriesByBacklog (s : Service) (backlogID : String) : Service × HTTPResponse :=
  match GolangBaseline.GetStoriesByBacklog s backlogID with
  | .error err => (s, sendResponse http.StatusInternalServerError false .nil err)
  | .ok stories => (s, sendResponse http.StatusOK true (.stories stories) "")

/-- The Go method `Handler.CreateSubTask`. -/
def Handler.CreateSubTask (s : Service) (uuid : String) (now1 now2 : Time)
    (body : Option CreateSubTaskRequest) : Service × HTTPResponse :=
  match body with
  | none => (s, sendResponse http.StatusBadRequest false .nil "Invalid request body")
  | some req =>
    match GolangBaseline.CreateSubTask s uuid now1 now2 req with
    | (s', .error err) => (s', sendResponse http.StatusInternalServerError false .nil err)
    | (s', .ok subtask) => (s', sendResponse http.StatusCreated true (.subtask subtask) "")

/-- The Go method `Handler.GetSubTask`. -/
def Handler.GetSubTask (s : Service) (id : String) : Service × HTTPResponse :=
  match GolangBaseline.GetSubTask s id with
  | .error err => (s, sendResponse http.StatusNotFound false .nil err)
  | .ok subtask => (s, sendResponse http.StatusOK true (.subtask subtask) "")

/-- The Go method `Handler.GetSubTasksByStory`. -/
def Handler.GetSubTasksByStory (s : Service) (storyID : String) : Service × HTTPResponse :=
  match GolangBaseline.GetSubTasksByStory s storyID with
  | .error err => (s, sendResponse http.StatusInternalServerError false .nil err)
  | .ok subtasks => (s, sendResponse http.StatusOK true (.subtasks subtasks) "")

/-- The Go method `Handler.UpdateStoryStatus`. -/
def Handler.UpdateStoryStatus (s : Service) (id : String) (now1 now : Time)
    (body : Option UpdateStatusRequest) : Service × HTTPResponse :=
  match body with
  | none => (s, sendResponse http.StatusBadRequest false .nil "Invalid request body")
  | some req =>
    match GolangBaseline.UpdateStoryStatus s id req.Status now1 now with
    | (s', .error err) => (s', sendResponse http.StatusNotFound false .nil err)
    | (s', .ok _) =>
      (s', sendResponse http.StatusOK true (.message "Status updated successfully") "")

/-- The Go method `Handler.UpdateSubTaskStatus`. -/
def Handler.UpdateSubTaskStatus (s : Service) (id : String) (now1 now : Time)
    (body : Option UpdateStatusRequest) : Service × HTTPResponse :=
  match body with
  | none => (s, sendResponse http.StatusBadRequest false .nil "Invalid request body")
  | some req =>
    match GolangBaseline.UpdateSubTaskStatus s id req.Status now1 now with
    | (s', .error err) => (s', sendResponse http.StatusNotFound false .nil err)
    | (s', .ok _) =>
      (s', sendResponse http.StatusOK true (.message "Status updated successfully") "")

/-- The Go method `Handler.GetDashboard`. -/
def Handler.GetDashboard (s : Service) : Service × HTTPResponse :=
  match GolangBaseline.GetDashboardStats s with
  | .error err => (s, sendResponse http.StatusInternalServerError false .nil err)
  | .ok stats => (s, sendResponse http.StatusOK true (.stats stats) "")

/-! ## Runs of the store -/

/-- One call of a method of `Service`, with the values its calls of `uuid.New()`
and `time.Now()` yield. -/
inductive Op where
  | createBacklog (uuid : String) (now1 now2 : Time) (req : CreateBacklogRequest)
  | getBacklog (id : String)
  | getAllBacklogs
  | createStory (uuid : String) (now1 now2 : Time) (req : CreateStoryRequest)
  | getStory (id : String)
  | getStoriesByBacklog (backlogID : String)
  | createSubTask (uuid : String) (now1 now2 : Time) (req : CreateSubTaskRequest)
  | getSubTask (id : String)
  | getSubTasksByStory (storyID : String)
  | updateBacklogStatus (id : String) (status : Status) (now : Time)
  | updateStoryStatus (id : String) (status : Status) (now1 now : Time)
  | updateSubTaskStatus (id : String) (status : Status) (now1 now : Time)
  | getDashboardStats

/-- The store after one call. -/
def Op.apply (s : Service) : Op → Service
  | .createBacklog uuid now1 now2 req => (CreateBacklog s uuid now1 now2 req).1
  | .getBacklog id => (GetBacklog s id).1
  | .getAllBacklogs => (GetAllBacklogs s).1
  | .createStory uuid now1 now2 req => (CreateStory s uuid now1 now2 req).1
  | .getStory id => (GetStory s id).1
  | .getStoriesByBacklog _ => s
  | .createSubTask uuid now1 now2 req => (CreateSubTask s uuid now1 now2 req).1
  | .getSubTask _ => s
  | .getSubTasksByStory _ => s
  | .updateBacklogStatus id status now => (UpdateBacklogStatus s id status now).1
  | .updateStoryStatus id status now1 now => (UpdateStoryStatus s id status now1 now).1
  | .updateSubTaskStatus id status now1 now => (UpdateSubTaskStatus s id status now1 now).1
  | .getDashboardStats => s

/-- The store after a sequence of calls. -/
def run (s : Service) (ops : List Op) : Service := ops.foldl Op.apply s

/-- The id a call generates is new: `uuid.New()` does not repeat an id that is
already a key of the map the call stores into. -/
def Op.Fresh (s : Service) : Op → Prop
  | .createBacklog uuid _ _ _ => uuid ∉ s.backlogs.keys
  | .createStory uuid _ _ _ => uuid ∉ s.stories.keys
  | .createSubTask uuid _ _ _ => uuid ∉ s.subtasks.keys
  | _ => True

instance Op.decidableFresh (s : Service) : (op : Op) → Decidable (op.Fresh s)
  | .createBacklog uuid _ _ _ => inferInstanceAs (Decidable (uuid ∉ s.backlogs.keys))
  | .getBacklog _ => isTrue trivial
  | .getAllBacklogs => isTrue trivial
  | .createStory uuid _ _ _ => inferInstanceAs (Decidable (uuid ∉ s.stories.keys))
  | .getStory _ => isTrue trivial
  | .getStoriesByBacklog _ => isTrue trivial
  | .createSubTask uuid _ _ _ => inferInstanceAs (Decidable (uuid ∉ s.subtasks.keys))
  | .getSubTask _ => isTrue trivial
  | .getSubTasksByStory _ => isTrue trivial
  | .updateBacklogStatus _ _ _ => isTrue trivial
  | .updateStoryStatus _ _ _ _ => isTrue trivial
  | .updateSubTaskStatus _ _ _ _ => isTrue trivial
  | .getDashboardStats => isTrue trivial

/-- Every call of the sequence generates a new id, each in the store it runs on. -/
def FreshRun : Service → List Op → Prop
  | _, [] => True
  | s, op :: ops => op.Fresh s ∧ FreshRun (op.apply s) ops

instance decidableFreshRun : (s : Service) → (ops : List Op) → Decidable (FreshRun s ops)
  | _, [] => isTrue trivial
  | s, op :: ops =>
    match Op.decidableFresh s op, decidableFreshRun (op.apply s) ops with
    | isTrue h₁, isTrue h₂ => isTrue ⟨h₁, h₂⟩
    | isFalse h₁, _ => isFalse (fun h => h₁ h.1)
    | _, isFalse h₂ => isFalse (fun h => h₂ h.2)

/-- The stores the program can be in: the maps are unexported fields, so a store
is `NewService()` followed by calls of the methods. -/
inductive Reachable : Service → Prop where
  | init : Reachable NewService
  | step {s : Service} (op : Op) : Reachable s → Reachable (op.apply s)

/-- The entities held in a map, one per key: the value found under each key. -/
def GoMap.stored {K V : Type} [DecidableEq K] (m : GoMap K V) : List V :=
  m.keys.filterMap m.lookup

/-- A story without its read-time child list. -/
def Story.withoutSubTasks (story : Story) : Story := { story with SubTasks := [] }

/-- Every entry of the map satisfies `P`. -/
def GoMap.All {K V : Type} [DecidableEq K] (P : K → V → Prop) (m : GoMap K V) : Prop :=
  ∀ k v, m.lookup k = some v → P k v

/-- Every key of `m` is a key of `m'`, and the value under it in `m'` is related by `R`
to the value under it in `m`. -/
def GoMap.Keeps {K V : Type} [DecidableEq K] (R : V → V → Prop) (m m' : GoMap K V) : Prop :=
  ∀ k v, m.lookup k = some v → ∃ v', m'.lookup k = some v' ∧ R v v'

/-- Every entity is stored under its own `ID`. -/
def Keyed (s : Service) : Prop :=
  s.backlogs.All (fun k backlog => backlog.ID = k) ∧
  s.stories.All (fun k story => story.ID = k) ∧
  s.subtasks.All (fun k subtask => subtask.ID = k)

/-- The actual dates of `a` that are present are the actual dates of `b`. -/
def StoryDates (a b : Story) : Prop :=
  (∀ t, a.ActualStart = some t → b.ActualStart = some t) ∧
  (∀ t, a.ActualEnd = some t → b.ActualEnd = some t)

/-- The actual dates of `a` that are present are the actual dates of `b`. -/
def SubTaskDates (a b : SubTask) : Prop :=
  (∀ t, a.ActualStart = some t → b.ActualStart = some t) ∧
  (∀ t, a.ActualEnd = some t → b.ActualEnd = some t)

/-! ## Sample stores -/

/-- A store with one backlog `b1`. -/
def store1 : Service :=
  (CreateBacklog NewService "b1" 1 1 { Title := "Release", Description := "" }).1

/-- A request for a story of backlog `b1`. -/
def storyReq : CreateStoryRequest :=
  { BacklogID := "b1", Title := "Login", Description := "", JiraURL := "",
    EffortOrigin := 3, PIC := "ana", PlanStart := 10, PlanEnd := 20 }

/-- A request for a subtask of story `s1`. -/
def subTaskReq : CreateSubTaskRequest :=
  { StoryID := "s1", Title := "Form", Description := "", Effort := 1, JiraURL := "",
    PIC := "ana", PlanStart := 10, PlanEnd := 12 }

/-- A store with backlog `b1` and its story `s1`. -/
def store2 : Service := (CreateStory store1 "s1" 2 2 storyReq).1

/-- A store with backlog `b1`, its story `s1` and the subtask `t1` of that story. -/
def store3 : Service := (CreateSubTask store2 "t1" 3 3 subTaskReq).1

/-- The story `s1` as `CreateStory` leaves it in `store2`. -/
def story1 : Story :=
  { ID := "s1", BacklogID := "b1", Title := "Login", Description := "", JiraURL := "",
    EffortOrigin := 3, PIC := "ana", PlanStart := 10, PlanEnd := 20,
    ActualStart := none, ActualEnd := none, Status := StatusTodo, SubTasks := [],
    CreatedAt := 2, UpdatedAt := 2 }

/-- The store after creating two backlogs, three stories (the third then set to DONE)
and one subtask. -/
def dashboardStore : Service :=
  run NewService
    [Op.createBacklog "b1" 1 1 { Title := "Release", Description := "" },
     Op.createBacklog "b2" 2 2 { Title := "Next", Description := "" },
     Op.createStory "s1" 3 3 storyReq,
     Op.createStory "s2" 4 4 storyReq,
     Op.createStory "s3" 5 5 { storyReq with BacklogID := "b2" },
     Op.updateStoryStatus "s3" StatusDone 6 6,
     Op.createSubTask "t1" 7 7 subTaskReq]


/-- The subtask `t1` as `CreateSubTask` leaves it in `store3`. -/
def subtask1 : SubTask :=
  { ID := "t1", StoryID := "s1", Title := "Form", Description := "", Effort := 1,
    JiraURL := "", PIC := "ana", PlanStart := 10, PlanEnd := 12,
    ActualStart := none, ActualEnd := none, Status := StatusTodo,
    CreatedAt := 3, UpdatedAt := 3 }

/-- The identifier and the parent reference of a story are those of another. -/
def StoryRefs (a b : Story) : Prop := b.ID = a.ID ∧ b.BacklogID = a.BacklogID

/-- The identifier and the parent reference of a subtask are those of another. -/
def SubTaskRefs (a b : SubTask) : Prop := b.ID = a.ID ∧ b.StoryID = a.StoryID


/-- The store `s'` has the subtasks of `s` and, in the same order, the stories of `s` up
to their child lists. -/
def SameStories (s s' : Service) : Prop :=
  s'.subtasks = s.subtasks ∧
  s'.stories.values.map Story.withoutSubTasks = s.stories.values.map Story.withoutSubTasks

/-- Two hydrated stories are the same up to the order of their subtasks. -/
def Story.SameUpToOrder (a b : Story) : Prop :=
  a.withoutSubTasks = b.withoutSubTasks ∧ List.Perm a.SubTasks b.SubTasks


/-- The status is one of the four constants of `models.go`. -/
def ValidStatus (st : Status) : Prop :=
  st = StatusTodo ∨ st = StatusInProgress ∨ st = StatusDone ∨ st = StatusBlocked

instance decidableValidStatus (st : Status) : Decidable (ValidStatus st) :=
  inferInstanceAs
    (Decidable (st = StatusTodo ∨ st = StatusInProgress ∨ st = StatusDone ∨ st = StatusBlocked))

/-- The status a call passes to `UpdateStoryStatus` or `UpdateSubTaskStatus`, if it is
such a call, is one of the four constants. -/
def Op.ValidStatus : Op → Prop
  | .updateStoryStatus _ status _ _ => GolangBaseline.ValidStatus status
  | .updateSubTaskStatus _ status _ _ => GolangBaseline.ValidStatus status
  | _ => True

/-- Every stored story and subtask has one of the four statuses. -/
def StatusClosed (s : Service) : Prop :=
  s.stories.All (fun _ story => ValidStatus story.Status) ∧
  s.subtasks.All (fun _ subtask => ValidStatus subtask.Status)

/-- Every stored story refers to a stored backlog and every stored subtask to a
stored story. -/
def RefInt (s : Service) : Prop :=
  s.stories.All (fun _ story => story.BacklogID ∈ s.backlogs.keys) ∧
  s.subtasks.All (fun _ subtask => subtask.StoryID ∈ s.stories.keys)

/-- The store `store2` after `PUT /api/stories/s1/status` with body
`{"status":"ARCHIVED"}`. -/
def storeArchived : Service :=
  (Handler.UpdateStoryStatus store2 "s1" 5 6 (some { Status := "ARCHIVED" })).1


/-! ## Lemmas on maps -/

namespace GoMap

variable {K V : Type} [DecidableEq K]

theorem lookup_eq_none_iff (m : GoMap K V) (k : K) : m.lookup k = none ↔ k ∉ m.keys := by
  simp only [lookup, keys, Option.map_eq_none', List.find?_eq_none, decide_eq_true_eq,
    List.mem_map, not_exists, not_and]

theorem mem_keys_iff (m : GoMap K V) (k : K) : k ∈ m.keys ↔ ∃ v, m.lookup k = some v := by
  constructor
  · intro h
    cases hl : m.lookup k with
    | none => exact absurd h ((lookup_eq_none_iff m k).1 hl)
    | some v => exact ⟨v, rfl⟩
  · rintro ⟨v, hv⟩
    by_contra hk
    rw [(lookup_eq_none_iff m k).2 hk] at hv
    cases hv

theorem lookup_store_self (m : GoMap K V) (k : K) (v : V) : (m.store k v).lookup k = some v := by
  simp [lookup, store]

theorem lookup_store_ne (m : GoMap K V) {k k' : K} (v : V) (h : k' ≠ k) :
    (m.store k v).lookup k' = m.lookup k' := by
  have hk : ¬ k = k' := fun e => h e.symm
  simp only [lookup, store, List.find?_cons, hk, decide_False]
  congr 1
  induction m.entries with
  | nil => rfl
  | cons e es ih =>
    by_cases he : e.1 = k
    · have h2 : ¬ e.1 = k' := fun e' => h (e'.symm.trans he)
      rw [List.filter_cons_of_neg (by simpa using he),
        List.find?_cons_of_neg _ (by simpa using h2), ih]
    · rw [List.filter_cons_of_pos (by simpa using he)]
      by_cases he' : e.1 = k'
      · rw [List.find?_cons_of_pos _ (by simpa using he'),
          List.find?_cons_of_pos _ (by simpa using he')]
      · rw [List.find?_cons_of_neg _ (by simpa using he'),
          List.find?_cons_of_neg _ (by simpa using he'), ih]

omit [DecidableEq K] in
theorem keys_mapVals (m : GoMap K V) (f : K → V → V) : (m.mapVals f).keys = m.keys := by
  simp [keys, mapVals, List.map_map, Function.comp_def]

omit [DecidableEq K] in
theorem len_mapVals (m : GoMap K V) (f : K → V → V) : (m.mapVals f).len = m.len := by
  simp [len, mapVals]

theorem lookup_mapVals (m : GoMap K V) (f : K → V → V) (k : K) :
    (m.mapVals f).lookup k = (m.lookup k).map (f k) := by
  simp only [lookup, mapVals]
  induction m.entries with
  | nil => rfl
  | cons e es ih =>
    by_cases he : e.1 = k
    · simp [List.find?_cons, he]
    · simpa [List.find?_cons, he] using ih

theorem keys_modify (m : GoMap K V) (k : K) (f : V → V) : (m.modify k f).keys = m.keys :=
  keys_mapVals m _

theorem len_modify (m : GoMap K V) (k : K) (f : V → V) : (m.modify k f).len = m.len :=
  len_mapVals m _

theorem lookup_modify_self (m : GoMap K V) (k : K) (f : V → V) :
    (m.modify k f).lookup k = (m.lookup k).map f := by
  simp [modify, lookup_mapVals]

theorem lookup_modify_ne (m : GoMap K V) {k k' : K} (f : V → V) (h : k' ≠ k) :
    (m.modify k f).lookup k' = m.lookup k' := by
  simp [modify, lookup_mapVals, h]

theorem keys_store (m : GoMap K V) (k : K) (v : V) :
    (m.store k v).keys = k :: m.keys.filter (fun k' => decide (k' ≠ k)) := by
  simp only [keys, store, List.map_cons, List.cons.injEq, true_and]
  induction m.entries with
  | nil => rfl
  | cons e es ih =>
    by_cases he : e.1 = k
    · rw [List.filter_cons_of_neg (by simpa using he), List.map_cons,
        List.filter_cons_of_neg (by simpa using he), ih]
    · rw [List.filter_cons_of_pos (by simpa using he), List.map_cons, List.map_cons,
        List.filter_cons_of_pos (by simpa using he), ih]

theorem mem_keys_store (m : GoMap K V) (k k' : K) (v : V) :
    k' ∈ (m.store k v).keys ↔ k' = k ∨ k' ∈ m.keys := by
  rw [keys_store]
  by_cases h : k' = k <;> simp [List.mem_filter, h]

theorem len_store_of_not_mem (m : GoMap K V) (k : K) (v : V) (h : k ∉ m.keys) :
    (m.store k v).len = m.len + 1 := by
  have hf : m.entries.filter (fun e => decide (e.1 ≠ k)) = m.entries := by
    rw [List.filter_eq_self]
    intro e he
    have : e.1 ≠ k := fun hk => h (hk ▸ List.mem_map_of_mem Prod.fst he)
    simpa using this
  simp only [len, store, hf, List.length_cons]

theorem filterMap_find_keys (es : List (K × V))
    (hnd : (es.map Prod.fst).Nodup) :
    (es.map Prod.fst).filterMap
      (fun k => (es.find? (fun e => decide (e.1 = k))).map Prod.snd) = es.map Prod.snd := by
  induction es with
  | nil => rfl
  | cons e es ih =>
    rw [List.map_cons, List.nodup_cons] at hnd
    have h1 : ∀ k ∈ es.map Prod.fst,
        (List.find? (fun x => decide (x.1 = k)) (e :: es)).map Prod.snd
          = (List.find? (fun x => decide (x.1 = k)) es).map Prod.snd := by
      intro k hk
      have : ¬ e.1 = k := fun h => hnd.1 (h ▸ hk)
      rw [List.find?_cons_of_neg _ (by simpa using this)]
    rw [List.map_cons, List.filterMap_cons, List.find?_cons_of_pos _ (by simp)]
    simp only [Option.map_some', List.map_cons]
    congr 1
    rw [← ih hnd.2]
    exact List.filterMap_congr h1

theorem stored_eq_values (m : GoMap K V) : m.stored = m.values :=
  filterMap_find_keys m.entries m.nodup

theorem lookup_empty (k : K) : (empty : GoMap K V).lookup k = none := rfl

theorem lookup_store (m : GoMap K V) (k k' : K) (v : V) :
    (m.store k v).lookup k' = if k' = k then some v else m.lookup k' := by
  by_cases h : k' = k
  · rw [if_pos h, h, lookup_store_self]
  · rw [if_neg h, lookup_store_ne _ _ h]

theorem all_empty (P : K → V → Prop) : (empty : GoMap K V).All P := by
  intro k v h
  rw [lookup_empty] at h
  cases h

theorem all_store {P : K → V → Prop} {m : GoMap K V} (h : m.All P) {k : K} {v : V}
    (hv : P k v) : (m.store k v).All P := by
  intro k' v' h'
  rw [lookup_store] at h'
  by_cases hk : k' = k
  · rw [if_pos hk] at h'
    cases h'
    rw [hk]
    exact hv
  · rw [if_neg hk] at h'
    exact h k' v' h'

theorem all_mapVals {P : K → V → Prop} {m : GoMap K V} {f : K → V → V}
    (hf : ∀ k v, m.lookup k = some v → P k (f k v)) : (m.mapVals f).All P := by
  intro k v' h'
  rw [lookup_mapVals] at h'
  cases hl : m.lookup k with
  | none => rw [hl] at h'; cases h'
  | some v =>
    rw [hl] at h'
    cases h'
    exact hf k v hl

theorem all_modify {P : K → V → Prop} {m : GoMap K V} (h : m.All P) {k : K} {f : V → V}
    (hf : ∀ v, m.lookup k = some v → P k (f v)) : (m.modify k f).All P := by
  apply all_mapVals
  intro k' v hl
  by_cases hk : k' = k
  · rw [if_pos hk]
    subst hk
    exact hf v hl
  · rw [if_neg hk]
    exact h k' v hl

theorem keeps_refl {R : V → V → Prop} (hR : ∀ v, R v v) (m : GoMap K V) : m.Keeps R m :=
  fun _ v h => ⟨v, h, hR v⟩

theorem keeps_trans {R : V → V → Prop} (hR : ∀ a b c, R a b → R b c → R a c)
    {m₁ m₂ m₃ : GoMap K V} (h₁ : m₁.Keeps R m₂) (h₂ : m₂.Keeps R m₃) : m₁.Keeps R m₃ := by
  intro k v h
  obtain ⟨v', hv', r⟩ := h₁ k v h
  obtain ⟨v'', hv'', r'⟩ := h₂ k v' hv'
  exact ⟨v'', hv'', hR _ _ _ r r'⟩

theorem keeps_mapVals {R : V → V → Prop} (m : GoMap K V) {f : K → V → V}
    (hf : ∀ k v, m.lookup k = some v → R v (f k v)) : m.Keeps R (m.mapVals f) := by
  intro k v h
  refine ⟨f k v, ?_, hf k v h⟩
  rw [lookup_mapVals, h]
  rfl

theorem keeps_modify {R : V → V → Prop} (hR : ∀ v, R v v) (m : GoMap K V) {k : K}
    {f : V → V} (hf : ∀ v, m.lookup k = some v → R v (f v)) : m.Keeps R (m.modify k f) := by
  apply keeps_mapVals
  intro k' v hl
  by_cases hk : k' = k
  · rw [if_pos hk]
    subst hk
    exact hf v hl
  · rw [if_neg hk]
    exact hR v

theorem keeps_store_fresh {R : V → V → Prop} (hR : ∀ v, R v v) (m : GoMap K V) {k : K}
    (v : V) (hk : k ∉ m.keys) : m.Keeps R (m.store k v) := by
  intro k' v' h
  have hne : k' ≠ k := by
    intro e
    rw [e, (lookup_eq_none_iff m k).2 hk] at h
    cases h
  exact ⟨v', by rw [lookup_store_ne _ _ hne, h], hR v'⟩

end GoMap

/-! ## Lemmas on the status updates -/

theorem UpdateStoryStatus_found {s : Service} {id : String} {story : Story}
    (h : s.stories.lookup id = some story) (st : Status) (now1 now : Time) :
    UpdateStoryStatus s id st now1 now
      = ({ s with stories := s.stories.modify id (fun _ => updateStory story st now1 now) },
         .ok ()) := by
  simp only [UpdateStoryStatus, h]

theorem UpdateStoryStatus_missing {s : Service} {id : String}
    (h : s.stories.lookup id = none) (st : Status) (now1 now : Time) :
    UpdateStoryStatus s id st now1 now = (s, .error "story not found") := by
  simp only [UpdateStoryStatus, h]

theorem UpdateStoryStatus_lookup {s : Service} {id : String} {story : Story}
    (h : s.stories.lookup id = some story) (st : Status) (now1 now : Time) :
    (UpdateStoryStatus s id st now1 now).1.stories.lookup id
      = some (updateStory story st now1 now) := by
  rw [UpdateStoryStatus_found h]
  simp only [GoMap.lookup_modify_self, h, Option.map_some']

theorem UpdateSubTaskStatus_found {s : Service} {id : String} {subtask : SubTask}
    (h : s.subtasks.lookup id = some subtask) (st : Status) (now1 now : Time) :
    UpdateSubTaskStatus s id st now1 now
      = ({ s with subtasks :=
            s.subtasks.modify id (fun _ => updateSubTask subtask st now1 now) },
         .ok ()) := by
  simp only [UpdateSubTaskStatus, h]

theorem UpdateSubTaskStatus_missing {s : Service} {id : String}
    (h : s.subtasks.lookup id = none) (st : Status) (now1 now : Time) :
    UpdateSubTaskStatus s id st now1 now = (s, .error "subtask not found") := by
  simp only [UpdateSubTaskStatus, h]

theorem UpdateSubTaskStatus_lookup {s : Service} {id : String} {subtask : SubTask}
    (h : s.subtasks.lookup id = some subtask) (st : Status) (now1 now : Time) :
    (UpdateSubTaskStatus s id st now1 now).1.subtasks.lookup id
      = some (updateSubTask subtask st now1 now) := by
  rw [UpdateSubTaskStatus_found h]
  simp only [GoMap.lookup_modify_self, h, Option.map_some']

theorem updateStory_Status (story : Story) (st : Status) (now1 now : Time) :
    (updateStory story st now1 now).Status = st := by
  unfold updateStory
  dsimp only
  split_ifs <;> rfl

theorem updateSubTask_Status (subtask : SubTask) (st : Status) (now1 now : Time) :
    (updateSubTask subtask st now1 now).Status = st := by
  unfold updateSubTask
  dsimp only
  split_ifs <;> rfl

/-! ## Lemmas on hydration -/

theorem withoutSubTasks_hydrate (s : Service) (story : Story) :
    (hydrate s story).withoutSubTasks = story.withoutSubTasks := rfl

theorem map_withoutSubTasks_hydrate (s : Service) (l : List Story) :
    (l.map (hydrate s)).map Story.withoutSubTasks = l.map Story.withoutSubTasks := by
  rw [List.map_map]
  rfl

theorem loadSubTasks_eq_stored (s : Service) (storyID : String) :
    loadSubTasks s storyID
      = s.subtasks.stored.filter (fun subtask => decide (subtask.StoryID = storyID)) := by
  rw [GoMap.stored_eq_values]
  rfl

theorem loadStories_eq_stored (s : Service) (id : String) :
    loadStories s id
      = (s.stories.stored.filter (fun story => decide (story.BacklogID = id))).map
          (hydrate s) := by
  rw [GoMap.stored_eq_values]
  rfl

theorem GetStoriesByBacklog_eq (s : Service) (backlogID : String) :
    GetStoriesByBacklog s backlogID = .ok (loadStories s backlogID) := rfl

theorem GetBacklog_found {s : Service} {id : String} {backlog : Backlog}
    (h : s.backlogs.lookup id = some backlog) :
    GetBacklog s id
      = ({ s with stories := hydrateStored s id,
                  backlogs := s.backlogs.modify id
                    (fun _ => { backlog with Stories := loadStories s id }) },
         .ok { backlog with Stories := loadStories s id }) := by
  simp only [GetBacklog, h]

theorem GetBacklog_missing {s : Service} {id : String} (h : s.backlogs.lookup id = none) :
    GetBacklog s id = (s, .error "backlog not found") := by
  simp only [GetBacklog, h]

theorem GetStory_found {s : Service} {id : String} {story : Story}
    (h : s.stories.lookup id = some story) :
    GetStory s id
      = ({ s with stories := s.stories.modify id
                    (fun _ => { story with SubTasks := loadSubTasks s id }) },
         .ok { story with SubTasks := loadSubTasks s id }) := by
  simp only [GetStory, h]

theorem GetStory_missing {s : Service} {id : String} (h : s.stories.lookup id = none) :
    GetStory s id = (s, .error "story not found") := by
  simp only [GetStory, h]

theorem mem_loadStories {s : Service} {id : String} {story : Story}
    (h : story ∈ loadStories s id) :
    story.SubTasks = loadSubTasks s story.ID := by
  simp only [loadStories, List.mem_map] at h
  obtain ⟨x, _, rfl⟩ := h
  rfl

theorem getAllBacklogs_fold (P : Service → Prop)
    (hstep : ∀ s id, P s → P { s with stories := hydrateStored s id }) :
    ∀ (bs : List Backlog) (acc : Service × List Backlog),
      P acc.1 → P (bs.foldl getAllBacklogsStep acc).1 := by
  intro bs
  induction bs with
  | nil => intro acc h; exact h
  | cons b bs ih =>
    intro acc h
    rw [List.foldl_cons]
    exact ih _ (hstep acc.1 b.ID h)

/-! ## Every entity is stored under its own id -/

theorem keyed_newService : Keyed NewService :=
  ⟨GoMap.all_empty _, GoMap.all_empty _, GoMap.all_empty _⟩

theorem keyed_hydrateStored (s : Service) (id : String) (h : Keyed s) :
    Keyed { s with stories := hydrateStored s id } := by
  refine ⟨h.1, ?_, h.2.2⟩
  apply GoMap.all_mapVals
  intro k story hl
  have hid : story.ID = k := h.2.1 k story hl
  by_cases hb : story.BacklogID = id
  · rw [if_pos hb]; exact hid
  · rw [if_neg hb]; exact hid

theorem updateStory_ID (story : Story) (st : Status) (now1 now : Time) :
    (updateStory story st now1 now).ID = story.ID := by
  unfold updateStory
  dsimp only
  split_ifs <;> rfl

theorem updateSubTask_ID (subtask : SubTask) (st : Status) (now1 now : Time) :
    (updateSubTask subtask st now1 now).ID = subtask.ID := by
  unfold updateSubTask
  dsimp only
  split_ifs <;> rfl

theorem keyed_apply (s : Service) (op : Op) (h : Keyed s) : Keyed (op.apply s) := by
  cases op with
  | createBacklog uuid now1 now2 req =>
    exact ⟨GoMap.all_store h.1 rfl, h.2.1, h.2.2⟩
  | getBacklog id =>
    show Keyed (GetBacklog s id).1
    cases hl : s.backlogs.lookup id with
    | none => rw [GetBacklog_missing hl]; exact h
    | some backlog =>
      rw [GetBacklog_found hl]
      refine ⟨?_, (keyed_hydrateStored s id h).2.1, h.2.2⟩
      apply GoMap.all_modify h.1
      intro v hv
      rw [hl] at hv
      cases hv
      exact h.1 id backlog hl
  | getAllBacklogs =>
    exact getAllBacklogs_fold Keyed keyed_hydrateStored _ (s, []) h
  | createStory uuid now1 now2 req =>
    show Keyed (CreateStory s uuid now1 now2 req).1
    unfold CreateStory
    cases s.backlogs.lookup req.BacklogID with
    | none => exact h
    | some backlog => exact ⟨h.1, GoMap.all_store h.2.1 rfl, h.2.2⟩
  | getStory id =>
    show Keyed (GetStory s id).1
    cases hl : s.stories.lookup id with
    | none => rw [GetStory_missing hl]; exact h
    | some story =>
      rw [GetStory_found hl]
      refine ⟨h.1, ?_, h.2.2⟩
      apply GoMap.all_modify h.2.1
      intro v hv
      rw [hl] at hv
      cases hv
      exact h.2.1 id story hl
  | getStoriesByBacklog _ => exact h
  | createSubTask uuid now1 now2 req =>
    show Keyed (CreateSubTask s uuid now1 now2 req).1
    unfold CreateSubTask
    cases s.stories.lookup req.StoryID with
    | none => exact h
    | some story => exact ⟨h.1, h.2.1, GoMap.all_store h.2.2 rfl⟩
  | getSubTask _ => exact h
  | getSubTasksByStory _ => exact h
  | updateBacklogStatus id status now =>
    show Keyed (UpdateBacklogStatus s id status now).1
    unfold UpdateBacklogStatus
    cases hl : s.backlogs.lookup id with
    | none => exact h
    | some backlog =>
      refine ⟨?_, h.2.1, h.2.2⟩
      apply GoMap.all_modify h.1
      intro v _
      exact h.1 id backlog hl
  | updateStoryStatus id status now1 now =>
    show Keyed (UpdateStoryStatus s id status now1 now).1
    cases hl : s.stories.lookup id with
    | none => rw [UpdateStoryStatus_missing hl]; exact h
    | some story =>
      rw [UpdateStoryStatus_found hl]
      refine ⟨h.1, ?_, h.2.2⟩
      apply GoMap.all_modify h.2.1
      intro v _
      rw [updateStory_ID]
      exact h.2.1 id story hl
  | updateSubTaskStatus id status now1 now =>
    show Keyed (UpdateSubTaskStatus s id status now1 now).1
    cases hl : s.subtasks.lookup id with
    | none => rw [UpdateSubTaskStatus_missing hl]; exact h
    | some subtask =>
      rw [UpdateSubTaskStatus_found hl]
      refine ⟨h.1, h.2.1, ?_⟩
      apply GoMap.all_modify h.2.2
      intro v _
      rw [updateSubTask_ID]
      exact h.2.2 id subtask hl
  | getDashboardStats => exact h

theorem keyed_of_reachable {s : Service} (h : Reachable s) : Keyed s := by
  induction h with
  | init => exact keyed_newService
  | step op _ ih => exact keyed_apply _ op ih

/-! ## Actual dates are kept -/

theorem storyDates_refl (a : Story) : StoryDates a a := ⟨fun _ h => h, fun _ h => h⟩

theorem storyDates_trans (a b c : Story) (h₁ : StoryDates a b) (h₂ : StoryDates b c) :
    StoryDates a c :=
  ⟨fun t h => h₂.1 t (h₁.1 t h), fun t h => h₂.2 t (h₁.2 t h)⟩

theorem subTaskDates_refl (a : SubTask) : SubTaskDates a a := ⟨fun _ h => h, fun _ h => h⟩

theorem subTaskDates_trans (a b c : SubTask) (h₁ : SubTaskDates a b)
    (h₂ : SubTaskDates b c) : SubTaskDates a c :=
  ⟨fun t h => h₂.1 t (h₁.1 t h), fun t h => h₂.2 t (h₁.2 t h)⟩

theorem storyDates_updateStory (story : Story) (st : Status) (now1 now : Time) :
    StoryDates story (updateStory story st now1 now) := by
  unfold updateStory
  dsimp only
  split_ifs with h1 h2
  · refine ⟨fun t ht => ?_, fun _ ht => ht⟩
    rw [h1.2] at ht
    cases ht
  · refine ⟨fun _ ht => ht, fun t ht => ?_⟩
    rw [h2.2] at ht
    cases ht
  · exact ⟨fun _ ht => ht, fun _ ht => ht⟩

theorem subTaskDates_updateSubTask (subtask : SubTask) (st : Status) (now1 now : Time) :
    SubTaskDates subtask (updateSubTask subtask st now1 now) := by
  unfold updateSubTask
  dsimp only
  split_ifs with h1 h2
  · refine ⟨fun t ht => ?_, fun _ ht => ht⟩
    rw [h1.2] at ht
    cases ht
  · refine ⟨fun _ ht => ht, fun t ht => ?_⟩
    rw [h2.2] at ht
    cases ht
  · exact ⟨fun _ ht => ht, fun _ ht => ht⟩

theorem keepsDates_hydrateStored (s : Service) (id : String) :
    s.stories.Keeps StoryDates (hydrateStored s id) := by
  apply GoMap.keeps_mapVals
  intro k story _
  by_cases hb : story.BacklogID = id
  · rw [if_pos hb]; exact ⟨fun _ h => h, fun _ h => h⟩
  · rw [if_neg hb]; exact storyDates_refl story

/-- The dates kept between two stores. -/
theorem keepsDates_apply (s : Service) (op : Op) (hf : op.Fresh s) :
    s.stories.Keeps StoryDates (op.apply s).stories ∧
    s.subtasks.Keeps SubTaskDates (op.apply s).subtasks := by
  have rs := GoMap.keeps_refl storyDates_refl s.stories
  have rt := GoMap.keeps_refl subTaskDates_refl s.subtasks
  cases op with
  | createBacklog uuid now1 now2 req => exact ⟨rs, rt⟩
  | getBacklog id =>
    show _ ∧ _
    simp only [Op.apply]
    cases hl : s.backlogs.lookup id with
    | none => rw [GetBacklog_missing hl]; exact ⟨rs, rt⟩
    | some backlog =>
      rw [GetBacklog_found hl]
      exact ⟨keepsDates_hydrateStored s id, rt⟩
  | getAllBacklogs =>
    exact getAllBacklogs_fold
      (fun s' => s.stories.Keeps StoryDates s'.stories ∧
        s.subtasks.Keeps SubTaskDates s'.subtasks)
      (fun s' id h => ⟨GoMap.keeps_trans storyDates_trans h.1 (keepsDates_hydrateStored s' id),
        h.2⟩)
      _ (s, []) ⟨rs, rt⟩
  | createStory uuid now1 now2 req =>
    simp only [Op.apply, CreateStory]
    cases s.backlogs.lookup req.BacklogID with
    | none => exact ⟨rs, rt⟩
    | some backlog => exact ⟨GoMap.keeps_store_fresh storyDates_refl _ _ hf, rt⟩
  | getStory id =>
    simp only [Op.apply]
    cases hl : s.stories.lookup id with
    | none => rw [GetStory_missing hl]; exact ⟨rs, rt⟩
    | some story =>
      rw [GetStory_found hl]
      refine ⟨GoMap.keeps_modify storyDates_refl _ ?_, rt⟩
      intro v hv
      rw [hl] at hv
      cases hv
      exact ⟨fun _ h => h, fun _ h => h⟩
  | getStoriesByBacklog _ => exact ⟨rs, rt⟩
  | createSubTask uuid now1 now2 req =>
    simp only [Op.apply, CreateSubTask]
    cases s.stories.lookup req.StoryID with
    | none => exact ⟨rs, rt⟩
    | some story => exact ⟨rs, GoMap.keeps_store_fresh subTaskDates_refl _ _ hf⟩
  | getSubTask _ => exact ⟨rs, rt⟩
  | getSubTasksByStory _ => exact ⟨rs, rt⟩
  | updateBacklogStatus id status now =>
    simp only [Op.apply, UpdateBacklogStatus]
    cases s.backlogs.lookup id with
    | none => exact ⟨rs, rt⟩
    | some backlog => exact ⟨rs, rt⟩
  | updateStoryStatus id status now1 now =>
    simp only [Op.apply]
    cases hl : s.stories.lookup id with
    | none => rw [UpdateStoryStatus_missing hl]; exact ⟨rs, rt⟩
    | some story =>
      rw [UpdateStoryStatus_found hl]
      refine ⟨GoMap.keeps_modify storyDates_refl _ ?_, rt⟩
      intro v hv
      rw [hl] at hv
      cases hv
      exact storyDates_updateStory _ _ _ _
  | updateSubTaskStatus id status now1 now =>
    simp only [Op.apply]
    cases hl : s.subtasks.lookup id with
    | none => rw [UpdateSubTaskStatus_missing hl]; exact ⟨rs, rt⟩
    | some subtask =>
      rw [UpdateSubTaskStatus_found hl]
      refine ⟨rs, GoMap.keeps_modify subTaskDates_refl _ ?_⟩
      intro v hv
      rw [hl] at hv
      cases hv
      exact subTaskDates_updateSubTask _ _ _ _
  | getDashboardStats => exact ⟨rs, rt⟩

theorem keepsDates_run (ops : List Op) :
    ∀ s : Service, FreshRun s ops →
      s.stories.Keeps StoryDates (run s ops).stories ∧
      s.subtasks.Keeps SubTaskDates (run s ops).subtasks := by
  induction ops with
  | nil =>
    intro s _
    exact ⟨GoMap.keeps_refl storyDates_refl _, GoMap.keeps_refl subTaskDates_refl _⟩
  | cons op ops ih =>
    intro s hf
    have h1 := keepsDates_apply s op hf.1
    have h2 := ih (op.apply s) hf.2
    exact ⟨GoMap.keeps_trans storyDates_trans h1.1 h2.1,
      GoMap.keeps_trans subTaskDates_trans h1.2 h2.2⟩

/-! ## Lemmas on the status histograms -/

theorem lookup_incr (m : GoMap Status Nat) (a k : Status) :
    (incr m a).lookup k = if k = a then some ((m.lookup a).getD 0 + 1) else m.lookup k :=
  GoMap.lookup_store m a k _

theorem lookup_foldl_incr (l : List Status) :
    ∀ (m : GoMap Status Nat) (k : Status),
      (l.foldl incr m).lookup k
        = if l.count k = 0 then m.lookup k else some ((m.lookup k).getD 0 + l.count k) := by
  induction l with
  | nil => intro m k; rfl
  | cons a l ih =>
    intro m k
    rw [List.foldl_cons, ih, lookup_incr]
    by_cases hk : k = a
    · subst hk
      rw [if_pos rfl, List.count_cons_self]
      by_cases hc : List.count k l = 0
      · rw [if_pos hc, if_neg (Nat.succ_ne_zero _), hc]
      · rw [if_neg hc, if_neg (Nat.succ_ne_zero _), Option.getD_some, Nat.add_assoc,
          Nat.add_comm 1]
    · have hka : ¬ a = k := fun e => hk e.symm
      rw [if_neg hk, List.count_cons_of_ne hk]

theorem lookup_histogram (l : List Status) (k : Status) :
    (l.foldl incr GoMap.empty).lookup k = if l.count k = 0 then none else some (l.count k) := by
  rw [lookup_foldl_incr, GoMap.lookup_empty, Option.getD_none, Nat.zero_add]

theorem count_status_stories (s : Service) (k : Status) :
    (s.stories.values.map (fun story => story.Status)).count k
      = s.stories.stored.countP (fun story => decide (story.Status = k)) := by
  rw [GoMap.stored_eq_values, List.count, List.countP_map]
  rfl

theorem count_status_subtasks (s : Service) (k : Status) :
    (s.subtasks.values.map (fun subtask => subtask.Status)).count k
      = s.subtasks.stored.countP (fun subtask => decide (subtask.Status = k)) := by
  rw [GoMap.stored_eq_values, List.count, List.countP_map]
  rfl


/-! ## No key is removed -/

theorem GoMap.keeps_store {K V : Type} [DecidableEq K] {R : V → V → Prop} (hR : ∀ v, R v v)
    (m : GoMap K V) (k : K) (v : V) (hv : ∀ v', m.lookup k = some v' → R v' v) :
    m.Keeps R (m.store k v) := by
  intro k' v' h
  by_cases hk : k' = k
  · subst hk
    exact ⟨v, GoMap.lookup_store_self _ _ _, hv v' h⟩
  · exact ⟨v', by rw [GoMap.lookup_store_ne _ _ hk, h], hR v'⟩

theorem GoMap.keys_of_keeps {K V : Type} [DecidableEq K] {R : V → V → Prop}
    {m m' : GoMap K V} (h : m.Keeps R m') : ∀ k ∈ m.keys, k ∈ m'.keys := by
  intro k hk
  obtain ⟨v, hv⟩ := (GoMap.mem_keys_iff _ _).1 hk
  obtain ⟨v', hv', _⟩ := h k v hv
  exact (GoMap.mem_keys_iff _ _).2 ⟨v', hv'⟩

theorem GoMap.len_le_of_keys {K V : Type} {m m' : GoMap K V}
    (h : ∀ k ∈ m.keys, k ∈ m'.keys) : m.len ≤ m'.len := by
  have h1 : m.keys.length ≤ m'.keys.length := (m.nodup.subperm h).length_le
  simpa [GoMap.keys, GoMap.len] using h1

/-- One call keeps every key of the three maps. -/
theorem keysKept_apply (s : Service) (op : Op) :
    s.backlogs.Keeps (fun _ _ => True) (op.apply s).backlogs ∧
    s.stories.Keeps (fun _ _ => True) (op.apply s).stories ∧
    s.subtasks.Keeps (fun _ _ => True) (op.apply s).subtasks := by
  have rb := GoMap.keeps_refl (R := fun _ _ => True) (fun _ => trivial) s.backlogs
  have rs := GoMap.keeps_refl (R := fun _ _ => True) (fun _ => trivial) s.stories
  have rt := GoMap.keeps_refl (R := fun _ _ => True) (fun _ => trivial) s.subtasks
  cases op with
  | createBacklog uuid now1 now2 req =>
    exact ⟨GoMap.keeps_store (fun _ => trivial) _ _ _ (fun _ _ => trivial), rs, rt⟩
  | getBacklog id =>
    simp only [Op.apply]
    cases hl : s.backlogs.lookup id with
    | none => rw [GetBacklog_missing hl]; exact ⟨rb, rs, rt⟩
    | some backlog =>
      rw [GetBacklog_found hl]
      exact ⟨GoMap.keeps_modify (fun _ => trivial) _ (fun _ _ => trivial),
        GoMap.keeps_mapVals _ (fun _ _ _ => trivial), rt⟩
  | getAllBacklogs =>
    exact getAllBacklogs_fold
      (fun s' => s.backlogs.Keeps (fun _ _ => True) s'.backlogs ∧
        s.stories.Keeps (fun _ _ => True) s'.stories ∧
        s.subtasks.Keeps (fun _ _ => True) s'.subtasks)
      (fun s' id h => ⟨h.1,
        GoMap.keeps_trans (fun _ _ _ _ _ => trivial) h.2.1
          (GoMap.keeps_mapVals _ (fun _ _ _ => trivial)), h.2.2⟩)
      _ (s, []) ⟨rb, rs, rt⟩
  | createStory uuid now1 now2 req =>
    simp only [Op.apply, CreateStory]
    cases s.backlogs.lookup req.BacklogID with
    | none => exact ⟨rb, rs, rt⟩
    | some backlog =>
      exact ⟨rb, GoMap.keeps_store (fun _ => trivial) _ _ _ (fun _ _ => trivial), rt⟩
  | getStory id =>
    simp only [Op.apply]
    cases hl : s.stories.lookup id with
    | none => rw [GetStory_missing hl]; exact ⟨rb, rs, rt⟩
    | some story =>
      rw [GetStory_found hl]
      exact ⟨rb, GoMap.keeps_modify (fun _ => trivial) _ (fun _ _ => trivial), rt⟩
  | getStoriesByBacklog _ => exact ⟨rb, rs, rt⟩
  | createSubTask uuid now1 now2 req =>
    simp only [Op.apply, CreateSubTask]
    cases s.stories.lookup req.StoryID with
    | none => exact ⟨rb, rs, rt⟩
    | some story =>
      exact ⟨rb, rs, GoMap.keeps_store (fun _ => trivial) _ _ _ (fun _ _ => trivial)⟩
  | getSubTask _ => exact ⟨rb, rs, rt⟩
  | getSubTasksByStory _ => exact ⟨rb, rs, rt⟩
  | updateBacklogStatus id status now =>
    simp only [Op.apply, UpdateBacklogStatus]
    cases s.backlogs.lookup id with
    | none => exact ⟨rb, rs, rt⟩
    | some backlog =>
      exact ⟨GoMap.keeps_modify (fun _ => trivial) _ (fun _ _ => trivial), rs, rt⟩
  | updateStoryStatus id status now1 now =>
    simp only [Op.apply]
    cases hl : s.stories.lookup id with
    | none => rw [UpdateStoryStatus_missing hl]; exact ⟨rb, rs, rt⟩
    | some story =>
      rw [UpdateStoryStatus_found hl]
      exact ⟨rb, GoMap.keeps_modify (fun _ => trivial) _ (fun _ _ => trivial), rt⟩
  | updateSubTaskStatus id status now1 now =>
    simp only [Op.apply]
    cases hl : s.subtasks.lookup id with
    | none => rw [UpdateSubTaskStatus_missing hl]; exact ⟨rb, rs, rt⟩
    | some subtask =>
      rw [UpdateSubTaskStatus_found hl]
      exact ⟨rb, rs, GoMap.keeps_modify (fun _ => trivial) _ (fun _ _ => trivial)⟩
  | getDashboardStats => exact ⟨rb, rs, rt⟩

theorem keys_apply (s : Service) (op : Op) :
    (∀ k ∈ s.backlogs.keys, k ∈ (op.apply s).backlogs.keys) ∧
    (∀ k ∈ s.stories.keys, k ∈ (op.apply s).stories.keys) ∧
    (∀ k ∈ s.subtasks.keys, k ∈ (op.apply s).subtasks.keys) :=
  ⟨GoMap.keys_of_keeps (keysKept_apply s op).1,
   GoMap.keys_of_keeps (keysKept_apply s op).2.1,
   GoMap.keys_of_keeps (keysKept_apply s op).2.2⟩

theorem keys_run (ops : List Op) :
    ∀ s : Service,
      (∀ k ∈ s.backlogs.keys, k ∈ (run s ops).backlogs.keys) ∧
      (∀ k ∈ s.stories.keys, k ∈ (run s ops).stories.keys) ∧
      (∀ k ∈ s.subtasks.keys, k ∈ (run s ops).subtasks.keys) := by
  induction ops with
  | nil => intro s; exact ⟨fun _ h => h, fun _ h => h, fun _ h => h⟩
  | cons op ops ih =>
    intro s
    have h1 := keys_apply s op
    have h2 := ih (op.apply s)
    exact ⟨fun k hk => h2.1 k (h1.1 k hk), fun k hk => h2.2.1 k (h1.2.1 k hk),
      fun k hk => h2.2.2 k (h1.2.2 k hk)⟩


/-! ## What a call with new ids keeps of the stored stories and subtasks -/

theorem keeps_apply_of (RS : Story → Story → Prop) (RT : SubTask → SubTask → Prop)
    (reflS : ∀ a, RS a a) (reflT : ∀ a, RT a a)
    (transS : ∀ a b c, RS a b → RS b c → RS a c)
    (hsub : ∀ (a : Story) (l : List SubTask), RS a { a with SubTasks := l })
    (hus : ∀ a st now1 now, RS a (updateStory a st now1 now))
    (hut : ∀ a st now1 now, RT a (updateSubTask a st now1 now))
    (s : Service) (op : Op) (hf : op.Fresh s) :
    s.stories.Keeps RS (op.apply s).stories ∧
    s.subtasks.Keeps RT (op.apply s).subtasks := by
  have rs := GoMap.keeps_refl reflS s.stories
  have rt := GoMap.keeps_refl reflT s.subtasks
  have hh : ∀ (s' : Service) (id : String), s'.stories.Keeps RS (hydrateStored s' id) := by
    intro s' id
    apply GoMap.keeps_mapVals
    intro k story _
    by_cases hb : story.BacklogID = id
    · rw [if_pos hb]; exact hsub story _
    · rw [if_neg hb]; exact reflS story
  cases op with
  | createBacklog uuid now1 now2 req => exact ⟨rs, rt⟩
  | getBacklog id =>
    simp only [Op.apply]
    cases hl : s.backlogs.lookup id with
    | none => rw [GetBacklog_missing hl]; exact ⟨rs, rt⟩
    | some backlog =>
      rw [GetBacklog_found hl]
      exact ⟨hh s id, rt⟩
  | getAllBacklogs =>
    exact getAllBacklogs_fold
      (fun s' => s.stories.Keeps RS s'.stories ∧ s.subtasks.Keeps RT s'.subtasks)
      (fun s' id h => ⟨GoMap.keeps_trans transS h.1 (hh s' id), h.2⟩)
      _ (s, []) ⟨rs, rt⟩
  | createStory uuid now1 now2 req =>
    simp only [Op.apply, CreateStory]
    cases s.backlogs.lookup req.BacklogID with
    | none => exact ⟨rs, rt⟩
    | some backlog => exact ⟨GoMap.keeps_store_fresh reflS _ _ hf, rt⟩
  | getStory id =>
    simp only [Op.apply]
    cases hl : s.stories.lookup id with
    | none => rw [GetStory_missing hl]; exact ⟨rs, rt⟩
    | some story =>
      rw [GetStory_found hl]
      refine ⟨GoMap.keeps_modify reflS _ ?_, rt⟩
      intro v hv
      rw [hl] at hv
      cases hv
      exact hsub story _
  | getStoriesByBacklog _ => exact ⟨rs, rt⟩
  | createSubTask uuid now1 now2 req =>
    simp only [Op.apply, CreateSubTask]
    cases s.stories.lookup req.StoryID with
    | none => exact ⟨rs, rt⟩
    | some story => exact ⟨rs, GoMap.keeps_store_fresh reflT _ _ hf⟩
  | getSubTask _ => exact ⟨rs, rt⟩
  | getSubTasksByStory _ => exact ⟨rs, rt⟩
  | updateBacklogStatus id status now =>
    simp only [Op.apply, UpdateBacklogStatus]
    cases s.backlogs.lookup id with
    | none => exact ⟨rs, rt⟩
    | some backlog => exact ⟨rs, rt⟩
  | updateStoryStatus id status now1 now =>
    simp only [Op.apply]
    cases hl : s.stories.lookup id with
    | none => rw [UpdateStoryStatus_missing hl]; exact ⟨rs, rt⟩
    | some story =>
      rw [UpdateStoryStatus_found hl]
      refine ⟨GoMap.keeps_modify reflS _ ?_, rt⟩
      intro v hv
      rw [hl] at hv
      cases hv
      exact hus _ _ _ _
  | updateSubTaskStatus id status now1 now =>
    simp only [Op.apply]
    cases hl : s.subtasks.lookup id with
    | none => rw [UpdateSubTaskStatus_missing hl]; exact ⟨rs, rt⟩
    | some subtask =>
      rw [UpdateSubTaskStatus_found hl]
      refine ⟨rs, GoMap.keeps_modify reflT _ ?_⟩
      intro v hv
      rw [hl] at hv
      cases hv
      exact hut _ _ _ _
  | getDashboardStats => exact ⟨rs, rt⟩

theorem updateStory_frame (story : Story) (st : Status) (now1 now : Time) :
    (updateStory story st now1 now).ID = story.ID ∧
    (updateStory story st now1 now).BacklogID = story.BacklogID ∧
    (updateStory story st now1 now).Title = story.Title ∧
    (updateStory story st now1 now).Description = story.Description ∧
    (updateStory story st now1 now).JiraURL = story.JiraURL ∧
    (updateStory story st now1 now).EffortOrigin = story.EffortOrigin ∧
    (updateStory story st now1 now).PIC = story.PIC ∧
    (updateStory story st now1 now).PlanStart = story.PlanStart ∧
    (updateStory story st now1 now).PlanEnd = story.PlanEnd ∧
    (updateStory story st now1 now).CreatedAt = story.CreatedAt ∧
    (updateStory story st now1 now).SubTasks = story.SubTasks := by
  unfold updateStory
  dsimp only
  split_ifs <;> exact ⟨rfl, rfl, rfl, rfl, rfl, rfl, rfl, rfl, rfl, rfl, rfl⟩

theorem updateSubTask_frame (subtask : SubTask) (st : Status) (now1 now : Time) :
    (updateSubTask subtask st now1 now).ID = subtask.ID ∧
    (updateSubTask subtask st now1 now).StoryID = subtask.StoryID ∧
    (updateSubTask subtask st now1 now).Title = subtask.Title ∧
    (updateSubTask subtask st now1 now).Description = subtask.Description ∧
    (updateSubTask subtask st now1 now).Effort = subtask.Effort ∧
    (updateSubTask subtask st now1 now).JiraURL = subtask.JiraURL ∧
    (updateSubTask subtask st now1 now).PIC = subtask.PIC ∧
    (updateSubTask subtask st now1 now).PlanStart = subtask.PlanStart ∧
    (updateSubTask subtask st now1 now).PlanEnd = subtask.PlanEnd ∧
    (updateSubTask subtask st now1 now).CreatedAt = subtask.CreatedAt := by
  unfold updateSubTask
  dsimp only
  split_ifs <;> exact ⟨rfl, rfl, rfl, rfl, rfl, rfl, rfl, rfl, rfl, rfl⟩

theorem keepsRefs_run (ops : List Op) :
    ∀ s : Service, FreshRun s ops →
      s.stories.Keeps StoryRefs (run s ops).stories ∧
      s.subtasks.Keeps SubTaskRefs (run s ops).subtasks := by
  have tS : ∀ a b c : Story, StoryRefs a b → StoryRefs b c → StoryRefs a c :=
    fun a b c h₁ h₂ => ⟨h₂.1.trans h₁.1, h₂.2.trans h₁.2⟩
  have tT : ∀ a b c : SubTask, SubTaskRefs a b → SubTaskRefs b c → SubTaskRefs a c :=
    fun a b c h₁ h₂ => ⟨h₂.1.trans h₁.1, h₂.2.trans h₁.2⟩
  induction ops with
  | nil =>
    intro s _
    exact ⟨GoMap.keeps_refl (fun _ => ⟨rfl, rfl⟩) _, GoMap.keeps_refl (fun _ => ⟨rfl, rfl⟩) _⟩
  | cons op ops ih =>
    intro s hf
    have h1 := keeps_apply_of StoryRefs SubTaskRefs
      (fun _ => ⟨rfl, rfl⟩) (fun _ => ⟨rfl, rfl⟩) tS (fun _ _ => ⟨rfl, rfl⟩)
      (fun a st n1 n => ⟨(updateStory_frame a st n1 n).1, (updateStory_frame a st n1 n).2.1⟩)
      (fun a st n1 n =>
        ⟨(updateSubTask_frame a st n1 n).1, (updateSubTask_frame a st n1 n).2.1⟩)
      s op hf.1
    have h2 := ih (op.apply s) hf.2
    exact ⟨GoMap.keeps_trans tS h1.1 h2.1, GoMap.keeps_trans tT h1.2 h2.2⟩


/-! ## Lemmas on `GetAllBacklogs` -/

theorem GoMap.mem_entries_of_lookup {K V : Type} [DecidableEq K] {m : GoMap K V} {k : K}
    {v : V} (h : m.lookup k = some v) : (k, v) ∈ m.entries := by
  unfold GoMap.lookup at h
  cases hf : m.entries.find? (fun e => decide (e.1 = k)) with
  | none => rw [hf] at h; cases h
  | some e =>
    rw [hf] at h
    cases h
    have hm := List.mem_of_find?_eq_some hf
    have hp : e.1 = k := by simpa using List.find?_some hf
    subst hp
    exact hm

theorem find_of_mem_entries {K V : Type} [DecidableEq K] (es : List (K × V))
    (hnd : (es.map Prod.fst).Nodup) {k : K} {v : V} (h : (k, v) ∈ es) :
    (es.find? (fun e => decide (e.1 = k))).map Prod.snd = some v := by
  induction es with
  | nil => cases h
  | cons e es ih =>
    rw [List.map_cons, List.nodup_cons] at hnd
    rcases List.mem_cons.1 h with h' | h'
    · subst h'
      rw [List.find?_cons_of_pos _ (by simp)]
      rfl
    · have hne : ¬ e.1 = k := fun he => hnd.1 (he ▸ List.mem_map_of_mem Prod.fst h')
      rw [List.find?_cons_of_neg _ (by simpa using hne)]
      exact ih hnd.2 h'

theorem GoMap.lookup_of_mem_entries {K V : Type} [DecidableEq K] (m : GoMap K V) {k : K}
    {v : V} (h : (k, v) ∈ m.entries) : m.lookup k = some v :=
  find_of_mem_entries m.entries m.nodup h

theorem GoMap.lookup_of_mem_values {K V : Type} [DecidableEq K] (m : GoMap K V) {v : V}
    (h : v ∈ m.values) : ∃ k, m.lookup k = some v := by
  simp only [GoMap.values, List.mem_map] at h
  obtain ⟨e, he, rfl⟩ := h
  exact ⟨e.1, GoMap.lookup_of_mem_entries m he⟩

theorem GoMap.mem_values_of_lookup {K V : Type} [DecidableEq K] {m : GoMap K V} {k : K}
    {v : V} (h : m.lookup k = some v) : v ∈ m.values :=
  List.mem_map.2 ⟨(k, v), GoMap.mem_entries_of_lookup h, rfl⟩

theorem hydrate_congr {s s' : Service} (h : s'.subtasks = s.subtasks) :
    hydrate s' = hydrate s := by
  funext story
  simp only [hydrate, loadSubTasks, h]

theorem loadStories_via_withoutSubTasks (s : Service) (id : String) :
    loadStories s id
      = (((s.stories.values.map Story.withoutSubTasks).filter
          (fun story => decide (story.BacklogID = id))).map (hydrate s)) := by
  rw [List.filter_map, List.map_map]
  rfl

theorem loadStories_congr {s s' : Service} (h : SameStories s s') (id : String) :
    loadStories s' id = loadStories s id := by
  rw [loadStories_via_withoutSubTasks, loadStories_via_withoutSubTasks, h.2,
    hydrate_congr h.1]

theorem sameStories_hydrateStored {s s' : Service} (h : SameStories s s') (id : String) :
    SameStories s { s' with stories := hydrateStored s' id } := by
  refine ⟨h.1, ?_⟩
  rw [← h.2]
  simp only [hydrateStored, GoMap.values, GoMap.mapVals, List.map_map]
  apply List.map_congr_left
  intro e _
  simp only [Function.comp]
  by_cases hb : e.2.BacklogID = id
  · rw [if_pos hb]; rfl
  · rw [if_neg hb]

theorem getAllBacklogs_fold_result (s : Service) :
    ∀ (bs : List Backlog) (acc : Service × List Backlog), SameStories s acc.1 →
      (bs.foldl getAllBacklogsStep acc).2
        = acc.2 ++ bs.map (fun b => { b with Stories := loadStories s b.ID }) := by
  intro bs
  induction bs with
  | nil => intro acc _; simp
  | cons b bs ih =>
    intro acc h
    rw [List.foldl_cons, ih _ (sameStories_hydrateStored h b.ID)]
    simp only [getAllBacklogsStep, List.map_cons, List.append_assoc, List.singleton_append,
      loadStories_congr h]

theorem GetAllBacklogs_result (s : Service) :
    (GetAllBacklogs s).2
      = .ok (s.backlogs.values.map (fun b => { b with Stories := loadStories s b.ID })) := by
  unfold GetAllBacklogs
  simp only
  rw [getAllBacklogs_fold_result s _ (s, []) ⟨rfl, rfl⟩]
  rfl

theorem keyed_values_ID {s : Service} (h : Keyed s) :
    s.backlogs.values.map (fun b => b.ID) = s.backlogs.keys := by
  simp only [GoMap.values, GoMap.keys, List.map_map]
  apply List.map_congr_left
  intro e he
  exact h.1 e.1 e.2 (GoMap.lookup_of_mem_entries _ he)


/-! ## Statuses of stored entities -/

theorem mem_keys_histogram (l : List Status) (k : Status) :
    k ∈ (l.foldl incr GoMap.empty).keys ↔ k ∈ l := by
  rw [GoMap.mem_keys_iff, lookup_histogram]
  by_cases hc : l.count k = 0
  · rw [if_pos hc]
    constructor
    · rintro ⟨v, hv⟩; cases hv
    · intro hm
      exact absurd hc (Nat.pos_iff_ne_zero.1 (List.count_pos_iff.2 hm))
  · rw [if_neg hc]
    exact ⟨fun _ => List.count_pos_iff.1 (Nat.pos_of_ne_zero hc), fun _ => ⟨_, rfl⟩⟩

theorem statusClosed_hydrateStored (s : Service) (id : String) (h : StatusClosed s) :
    StatusClosed { s with stories := hydrateStored s id } := by
  refine ⟨?_, h.2⟩
  apply GoMap.all_mapVals
  intro k story hl
  have hv : ValidStatus story.Status := h.1 k story hl
  by_cases hb : story.BacklogID = id
  · rw [if_pos hb]; exact hv
  · rw [if_neg hb]; exact hv

theorem statusClosed_apply (s : Service) (op : Op) (h : StatusClosed s)
    (hv : op.ValidStatus) : StatusClosed (op.apply s) := by
  cases op with
  | createBacklog uuid now1 now2 req => exact h
  | getBacklog id =>
    simp only [Op.apply]
    cases hl : s.backlogs.lookup id with
    | none => rw [GetBacklog_missing hl]; exact h
    | some backlog =>
      rw [GetBacklog_found hl]
      exact ⟨(statusClosed_hydrateStored s id h).1, h.2⟩
  | getAllBacklogs =>
    exact getAllBacklogs_fold StatusClosed statusClosed_hydrateStored _ (s, []) h
  | createStory uuid now1 now2 req =>
    simp only [Op.apply, CreateStory]
    cases s.backlogs.lookup req.BacklogID with
    | none => exact h
    | some backlog => exact ⟨GoMap.all_store h.1 (Or.inl rfl), h.2⟩
  | getStory id =>
    simp only [Op.apply]
    cases hl : s.stories.lookup id with
    | none => rw [GetStory_missing hl]; exact h
    | some story =>
      rw [GetStory_found hl]
      refine ⟨GoMap.all_modify h.1 ?_, h.2⟩
      intro v _
      exact h.1 id story hl
  | getStoriesByBacklog _ => exact h
  | createSubTask uuid now1 now2 req =>
    simp only [Op.apply, CreateSubTask]
    cases s.stories.lookup req.StoryID with
    | none => exact h
    | some story => exact ⟨h.1, GoMap.all_store h.2 (Or.inl rfl)⟩
  | getSubTask _ => exact h
  | getSubTasksByStory _ => exact h
  | updateBacklogStatus id status now =>
    simp only [Op.apply, UpdateBacklogStatus]
    cases s.backlogs.lookup id with
    | none => exact h
    | some backlog => exact h
  | updateStoryStatus id status now1 now =>
    simp only [Op.apply]
    cases hl : s.stories.lookup id with
    | none => rw [UpdateStoryStatus_missing hl]; exact h
    | some story =>
      rw [UpdateStoryStatus_found hl]
      refine ⟨GoMap.all_modify h.1 ?_, h.2⟩
      intro v _
      show ValidStatus (updateStory story status now1 now).Status
      rw [updateStory_Status]
      exact hv
  | updateSubTaskStatus id status now1 now =>
    simp only [Op.apply]
    cases hl : s.subtasks.lookup id with
    | none => rw [UpdateSubTaskStatus_missing hl]; exact h
    | some subtask =>
      rw [UpdateSubTaskStatus_found hl]
      refine ⟨h.1, GoMap.all_modify h.2 ?_⟩
      intro v _
      show ValidStatus (updateSubTask subtask status now1 now).Status
      rw [updateSubTask_Status]
      exact hv
  | getDashboardStats => exact h

theorem statusClosed_run (ops : List Op) :
    ∀ s : Service, StatusClosed s → (∀ op ∈ ops, op.ValidStatus) →
      StatusClosed (run s ops) := by
  induction ops with
  | nil => intro s h _; exact h
  | cons op ops ih =>
    intro s h hv
    exact ih (op.apply s)
      (statusClosed_apply s op h (hv op (List.mem_cons_self _ _)))
      (fun op' hop' => hv op' (List.mem_cons_of_mem _ hop'))

/-! ## Parent references of stored entities -/

theorem refInt_backlogs (s : Service) (backlogs' : GoMap String Backlog)
    (hk : ∀ k ∈ s.backlogs.keys, k ∈ backlogs'.keys) (h : RefInt s) :
    RefInt { s with backlogs := backlogs' } :=
  ⟨fun k v hl => hk _ (h.1 k v hl), h.2⟩

theorem refInt_mapVals_stories (s : Service) (f : String → Story → Story)
    (hf : ∀ k v, s.stories.lookup k = some v → (f k v).BacklogID = v.BacklogID)
    (h : RefInt s) : RefInt { s with stories := s.stories.mapVals f } := by
  refine ⟨?_, ?_⟩
  · apply GoMap.all_mapVals
    intro k v hl
    show (f k v).BacklogID ∈ s.backlogs.keys
    rw [hf k v hl]
    exact h.1 k v hl
  · intro k v hl
    show v.StoryID ∈ (s.stories.mapVals f).keys
    rw [GoMap.keys_mapVals]
    exact h.2 k v hl

theorem refInt_mapVals_subtasks (s : Service) (f : String → SubTask → SubTask)
    (hf : ∀ k v, s.subtasks.lookup k = some v → (f k v).StoryID = v.StoryID)
    (h : RefInt s) : RefInt { s with subtasks := s.subtasks.mapVals f } := by
  refine ⟨h.1, ?_⟩
  apply GoMap.all_mapVals
  intro k v hl
  show (f k v).StoryID ∈ s.stories.keys
  rw [hf k v hl]
  exact h.2 k v hl

theorem refInt_store_story (s : Service) (k : String) (v : Story)
    (hv : v.BacklogID ∈ s.backlogs.keys) (h : RefInt s) :
    RefInt { s with stories := s.stories.store k v } := by
  refine ⟨GoMap.all_store h.1 hv, ?_⟩
  intro k' v' hl
  show v'.StoryID ∈ (s.stories.store k v).keys
  rw [GoMap.mem_keys_store]
  exact Or.inr (h.2 k' v' hl)

theorem refInt_store_subtask (s : Service) (k : String) (v : SubTask)
    (hv : v.StoryID ∈ s.stories.keys) (h : RefInt s) :
    RefInt { s with subtasks := s.subtasks.store k v } :=
  ⟨h.1, GoMap.all_store h.2 hv⟩

theorem refInt_hydrateStored (s : Service) (id : String) (h : RefInt s) :
    RefInt { s with stories := hydrateStored s id } := by
  apply refInt_mapVals_stories s _ _ h
  intro k v _
  by_cases hb : v.BacklogID = id
  · rw [if_pos hb]; rfl
  · rw [if_neg hb]

theorem refInt_modify_story (s : Service) (id : String) (story story' : Story)
    (hl : s.stories.lookup id = some story) (hb : story'.BacklogID = story.BacklogID)
    (h : RefInt s) : RefInt { s with stories := s.stories.modify id (fun _ => story') } := by
  apply refInt_mapVals_stories s _ _ h
  intro k v hv
  by_cases hk : k = id
  · rw [if_pos hk]
    subst hk
    rw [hl] at hv
    cases hv
    exact hb
  · rw [if_neg hk]

theorem refInt_apply (s : Service) (op : Op) (h : RefInt s) : RefInt (op.apply s) := by
  cases op with
  | createBacklog uuid now1 now2 req =>
    exact refInt_backlogs s _ (fun k hk => (GoMap.mem_keys_store _ _ _ _).2 (Or.inr hk)) h
  | getBacklog id =>
    simp only [Op.apply]
    cases hl : s.backlogs.lookup id with
    | none => rw [GetBacklog_missing hl]; exact h
    | some backlog =>
      rw [GetBacklog_found hl]
      exact refInt_backlogs { s with stories := hydrateStored s id } _
        (fun k hk => by rw [GoMap.keys_modify]; exact hk) (refInt_hydrateStored s id h)
  | getAllBacklogs =>
    exact getAllBacklogs_fold RefInt refInt_hydrateStored _ (s, []) h
  | createStory uuid now1 now2 req =>
    simp only [Op.apply, CreateStory]
    cases hl : s.backlogs.lookup req.BacklogID with
    | none => exact h
    | some backlog =>
      exact refInt_store_story s _ _ ((GoMap.mem_keys_iff _ _).2 ⟨backlog, hl⟩) h
  | getStory id =>
    simp only [Op.apply]
    cases hl : s.stories.lookup id with
    | none => rw [GetStory_missing hl]; exact h
    | some story =>
      rw [GetStory_found hl]
      exact refInt_modify_story s id story _ hl rfl h
  | getStoriesByBacklog _ => exact h
  | createSubTask uuid now1 now2 req =>
    simp only [Op.apply, CreateSubTask]
    cases hl : s.stories.lookup req.StoryID with
    | none => exact h
    | some story =>
      exact refInt_store_subtask s _ _ ((GoMap.mem_keys_iff _ _).2 ⟨story, hl⟩) h
  | getSubTask _ => exact h
  | getSubTasksByStory _ => exact h
  | updateBacklogStatus id status now =>
    simp only [Op.apply, UpdateBacklogStatus]
    cases s.backlogs.lookup id with
    | none => exact h
    | some backlog =>
      exact refInt_backlogs s _ (fun k hk => by rw [GoMap.keys_modify]; exact hk) h
  | updateStoryStatus id status now1 now =>
    simp only [Op.apply]
    cases hl : s.stories.lookup id with
    | none => rw [UpdateStoryStatus_missing hl]; exact h
    | some story =>
      rw [UpdateStoryStatus_found hl]
      exact refInt_modify_story s id story _ hl (updateStory_frame story _ _ _).2.1 h
  | updateSubTaskStatus id status now1 now =>
    simp only [Op.apply]
    cases hl : s.subtasks.lookup id with
    | none => rw [UpdateSubTaskStatus_missing hl]; exact h
    | some subtask =>
      rw [UpdateSubTaskStatus_found hl]
      apply refInt_mapVals_subtasks s _ _ h
      intro k v hv
      by_cases hk : k = id
      · rw [if_pos hk]
        subst hk
        rw [hl] at hv
        cases hv
        exact (updateSubTask_frame _ _ _ _).2.1
      · rw [if_neg hk]
  | getDashboardStats => exact h

theorem refInt_of_reachable {s : Service} (h : Reachable s) : RefInt s := by
  induction h with
  | init => exact ⟨GoMap.all_empty _, GoMap.all_empty _⟩
  | step op _ ih => exact refInt_apply _ op ih


/-! ## Sums of the status histograms -/

theorem sum_filter_add_find {K : Type} [DecidableEq K] (es : List (K × Nat))
    (hnd : (es.map Prod.fst).Nodup) (k : K) :
    ((es.filter (fun e => decide (e.1 ≠ k))).map Prod.snd).sum
        + ((es.find? (fun e => decide (e.1 = k))).map Prod.snd).getD 0
      = (es.map Prod.snd).sum := by
  induction es with
  | nil => rfl
  | cons e es ih =>
    rw [List.map_cons, List.nodup_cons] at hnd
    by_cases he : e.1 = k
    · have hself : es.filter (fun e' => decide (e'.1 ≠ k)) = es := by
        rw [List.filter_eq_self]
        intro e' he'
        have : e'.1 ≠ k := fun hk => hnd.1 (he ▸ hk ▸ List.mem_map_of_mem Prod.fst he')
        simpa using this
      rw [List.filter_cons_of_neg (by simpa using he), hself,
        List.find?_cons_of_pos _ (by simpa using he), List.map_cons, List.sum_cons]
      simp only [Option.map_some', Option.getD_some]
      exact Nat.add_comm _ _
    · rw [List.filter_cons_of_pos (by simpa using he),
        List.find?_cons_of_neg _ (by simpa using he), List.map_cons, List.map_cons,
        List.sum_cons, List.sum_cons, Nat.add_assoc, ih hnd.2]

theorem sum_values_incr (m : GoMap Status Nat) (a : Status) :
    (incr m a).values.sum = m.values.sum + 1 := by
  have h := sum_filter_add_find m.entries m.nodup a
  show (((a, (m.lookup a).getD 0 + 1) ::
      m.entries.filter (fun e => decide (e.1 ≠ a))).map Prod.snd).sum = _
  rw [List.map_cons, List.sum_cons]
  show (m.lookup a).getD 0 + 1 + _ = (m.entries.map Prod.snd).sum + 1
  rw [← h]
  unfold GoMap.lookup
  omega

theorem sum_values_foldl_incr (l : List Status) :
    ∀ m : GoMap Status Nat, (l.foldl incr m).values.sum = m.values.sum + l.length := by
  induction l with
  | nil => intro m; rfl
  | cons a l ih =>
    intro m
    rw [List.foldl_cons, ih, sum_values_incr, List.length_cons]
    omega

theorem sum_values_histogram (l : List Status) :
    (l.foldl incr GoMap.empty).values.sum = l.length := by
  rw [sum_values_foldl_incr]
  show 0 + l.length = l.length
  omega


/-! ## Lemmas on reading back what was created -/

theorem GoMap.values_store_fresh {K V : Type} [DecidableEq K] (m : GoMap K V) (k : K) (v : V)
    (h : k ∉ m.keys) : (m.store k v).values = v :: m.values := by
  have hf : m.entries.filter (fun e => decide (e.1 ≠ k)) = m.entries := by
    rw [List.filter_eq_self]
    intro e he
    have : e.1 ≠ k := fun hk => h (hk ▸ List.mem_map_of_mem Prod.fst he)
    simpa using this
  simp only [GoMap.values, GoMap.store, hf, List.map_cons]

theorem CreateStory_ok {s : Service} {uuid : String} {now1 now2 : Time}
    {req : CreateStoryRequest} {story : Story}
    (h : (CreateStory s uuid now1 now2 req).2 = .ok story) :
    req.BacklogID ∈ s.backlogs.keys ∧ story.ID = uuid ∧ story.BacklogID = req.BacklogID ∧
      story.SubTasks = [] ∧
      (CreateStory s uuid now1 now2 req).1 = { s with stories := s.stories.store uuid story } := by
  unfold CreateStory at h ⊢
  cases hl : s.backlogs.lookup req.BacklogID with
  | none => rw [hl] at h; cases h
  | some backlog =>
    rw [hl] at h
    cases h
    exact ⟨(GoMap.mem_keys_iff _ _).2 ⟨backlog, hl⟩, rfl, rfl, rfl, rfl⟩

theorem CreateSubTask_ok {s : Service} {uuid : String} {now1 now2 : Time}
    {req : CreateSubTaskRequest} {subtask : SubTask}
    (h : (CreateSubTask s uuid now1 now2 req).2 = .ok subtask) :
    req.StoryID ∈ s.stories.keys ∧ subtask.ID = uuid ∧ subtask.StoryID = req.StoryID ∧
      (CreateSubTask s uuid now1 now2 req).1
        = { s with subtasks := s.subtasks.store uuid subtask } := by
  unfold CreateSubTask at h ⊢
  cases hl : s.stories.lookup req.StoryID with
  | none => rw [hl] at h; cases h
  | some story =>
    rw [hl] at h
    cases h
    exact ⟨(GoMap.mem_keys_iff _ _).2 ⟨story, hl⟩, rfl, rfl, rfl⟩

theorem keyed_story_ID_mem {s : Service} (h : Keyed s) {story : Story}
    (hm : story ∈ s.stories.values) : story.ID ∈ s.stories.keys := by
  obtain ⟨k, hk⟩ := GoMap.lookup_of_mem_values _ hm
  rw [h.2.1 k story hk]
  exact (GoMap.mem_keys_iff _ _).2 ⟨story, hk⟩

theorem keyed_subtask_ID_mem {s : Service} (h : Keyed s) {subtask : SubTask}
    (hm : subtask ∈ s.subtasks.values) : subtask.ID ∈ s.subtasks.keys := by
  obtain ⟨k, hk⟩ := GoMap.lookup_of_mem_values _ hm
  rw [h.2.2 k subtask hk]
  exact (GoMap.mem_keys_iff _ _).2 ⟨subtask, hk⟩

theorem loadSubTasks_fresh {s : Service} (h : RefInt s) {uuid : String}
    (hf : uuid ∉ s.stories.keys) : loadSubTasks s uuid = [] := by
  unfold loadSubTasks
  rw [List.filter_eq_nil_iff]
  intro subtask hm
  obtain ⟨k, hk⟩ := GoMap.lookup_of_mem_values _ hm
  have hin : subtask.StoryID ∈ s.stories.keys := h.2 k subtask hk
  have hne : subtask.StoryID ≠ uuid := fun e => hf (e ▸ hin)
  simpa using hne

theorem not_mem_loadStories_fresh {s s' : Service} (h : Keyed s) {story : Story}
    (hf : story.ID ∉ s.stories.keys) (id : String) :
    story ∉ (s.stories.values.filter (fun x => decide (x.BacklogID = id))).map (hydrate s') := by
  intro hm
  obtain ⟨x, hx, rfl⟩ := List.mem_map.1 hm
  have hx' : x.ID ∈ s.stories.keys := keyed_story_ID_mem h (List.mem_of_mem_filter hx)
  exact hf hx'

/-- Reading the stories of a backlog after `CreateStory` stored `story` under the new
id `uuid`: the new story comes first when it belongs to the backlog, the rest is what
was read before. -/
theorem loadStories_store_fresh {s : Service} (hr : RefInt s) {uuid : String}
    (hf : uuid ∉ s.stories.keys) {story : Story} (hid : story.ID = uuid)
    (hsub : story.SubTasks = []) (id : String) :
    loadStories { s with stories := s.stories.store uuid story } id
      = if story.BacklogID = id then story :: loadStories s id else loadStories s id := by
  have hh : hydrate { s with stories := s.stories.store uuid story } = hydrate s :=
    hydrate_congr rfl
  have hs : hydrate s story = story := by
    have e : loadSubTasks s story.ID = [] := by
      rw [hid]
      exact loadSubTasks_fresh hr hf
    unfold hydrate
    rw [e, ← hsub]
  unfold loadStories
  rw [hh]
  show ((s.stories.store uuid story).values.filter _).map _ = _
  rw [GoMap.values_store_fresh _ _ _ hf]
  by_cases hb : story.BacklogID = id
  · rw [List.filter_cons_of_pos (by simpa using hb), if_pos hb, List.map_cons, hs]
  · rw [List.filter_cons_of_neg (by simpa using hb), if_neg hb]


/-! ## Creation -/

/-- C1: `CreateStory` with a `backlog_id` that is not a key of the backlogs map, and
`CreateSubTask` with a `story_id` that is not a key of the stories map, return the
not-found error and the store they were given: the three maps are unchanged. -/
theorem create_unknown_parent (s : Service) (uuid : String) (now1 now2 : Time) :
    (∀ req : CreateStoryRequest, req.BacklogID ∉ s.backlogs.keys →
      CreateStory s uuid now1 now2 req = (s, .error "backlog not found")) ∧
    (∀ req : CreateSubTaskRequest, req.StoryID ∉ s.stories.keys →
      CreateSubTask s uuid now1 now2 req = (s, .error "story not found")) := by
  constructor
  · intro req h
    simp only [CreateStory, (GoMap.lookup_eq_none_iff _ _).2 h]
  · intro req h
    simp only [CreateSubTask, (GoMap.lookup_eq_none_iff _ _).2 h]

theorem create_unknown_parent_witness :
    CreateStory store1 "s9" 5 5 { storyReq with BacklogID := "nope" }
        = (store1, .error "backlog not found") ∧
    CreateSubTask store1 "t9" 5 5 subTaskReq = (store1, .error "story not found") :=
  ⟨(create_unknown_parent store1 "s9" 5 5).1 { storyReq with BacklogID := "nope" } (by decide),
   (create_unknown_parent store1 "t9" 5 5).2 subTaskReq (by decide)⟩

/-- C2: `CreateStory` on a request whose `backlog_id` is a key of the backlogs map
succeeds; the returned story has status TODO, no actual dates, no subtasks, the
request's fields, and is the story stored under the returned id.  The same for
`CreateSubTask` on a request whose `story_id` is a key of the stories map. -/
theorem create_known_parent (s : Service) (uuid : String) (now1 now2 : Time) :
    (∀ req : CreateStoryRequest, req.BacklogID ∈ s.backlogs.keys →
      ∃ story, (CreateStory s uuid now1 now2 req).2 = .ok story ∧
        story.Status = StatusTodo ∧ story.ActualStart = none ∧ story.ActualEnd = none ∧
        story.SubTasks = [] ∧ story.BacklogID = req.BacklogID ∧ story.Title = req.Title ∧
        story.Description = req.Description ∧ story.JiraURL = req.JiraURL ∧
        story.EffortOrigin = req.EffortOrigin ∧ story.PIC = req.PIC ∧
        story.PlanStart = req.PlanStart ∧ story.PlanEnd = req.PlanEnd ∧
        (CreateStory s uuid now1 now2 req).1.stories.lookup story.ID = some story) ∧
    (∀ req : CreateSubTaskRequest, req.StoryID ∈ s.stories.keys →
      ∃ subtask, (CreateSubTask s uuid now1 now2 req).2 = .ok subtask ∧
        subtask.Status = StatusTodo ∧ subtask.ActualStart = none ∧ subtask.ActualEnd = none ∧
        subtask.StoryID = req.StoryID ∧ subtask.Title = req.Title ∧
        subtask.Description = req.Description ∧ subtask.Effort = req.Effort ∧
        subtask.JiraURL = req.JiraURL ∧ subtask.PIC = req.PIC ∧
        subtask.PlanStart = req.PlanStart ∧ subtask.PlanEnd = req.PlanEnd ∧
        (CreateSubTask s uuid now1 now2 req).1.subtasks.lookup subtask.ID = some subtask) := by
  constructor
  · intro req h
    obtain ⟨b, hb⟩ := (GoMap.mem_keys_iff _ _).1 h
    simp only [CreateStory, hb]
    exact ⟨_, rfl, rfl, rfl, rfl, rfl, rfl, rfl, rfl, rfl, rfl, rfl, rfl, rfl,
      GoMap.lookup_store_self _ _ _⟩
  · intro req h
    obtain ⟨b, hb⟩ := (GoMap.mem_keys_iff _ _).1 h
    simp only [CreateSubTask, hb]
    exact ⟨_, rfl, rfl, rfl, rfl, rfl, rfl, rfl, rfl, rfl, rfl, rfl, rfl,
      GoMap.lookup_store_self _ _ _⟩

theorem create_known_parent_witness :
    (∃ story, (CreateStory store1 "s1" 2 2 storyReq).2 = .ok story ∧
      story.Status = StatusTodo ∧ story.ActualStart = none ∧ story.ActualEnd = none ∧
      story.SubTasks = [] ∧ story.BacklogID = storyReq.BacklogID ∧
      story.Title = storyReq.Title ∧ story.Description = storyReq.Description ∧
      story.JiraURL = storyReq.JiraURL ∧ story.EffortOrigin = storyReq.EffortOrigin ∧
      story.PIC = storyReq.PIC ∧ story.PlanStart = storyReq.PlanStart ∧
      story.PlanEnd = storyReq.PlanEnd ∧
      (CreateStory store1 "s1" 2 2 storyReq).1.stories.lookup story.ID = some story) ∧
    (∃ subtask, (CreateSubTask store2 "t1" 3 3 subTaskReq).2 = .ok subtask ∧
      subtask.Status = StatusTodo ∧ subtask.ActualStart = none ∧ subtask.ActualEnd = none ∧
      subtask.StoryID = subTaskReq.StoryID ∧ subtask.Title = subTaskReq.Title ∧
      subtask.Description = subTaskReq.Description ∧ subtask.Effort = subTaskReq.Effort ∧
      subtask.JiraURL = subTaskReq.JiraURL ∧ subtask.PIC = subTaskReq.PIC ∧
      subtask.PlanStart = subTaskReq.PlanStart ∧ subtask.PlanEnd = subTaskReq.PlanEnd ∧
      (CreateSubTask store2 "t1" 3 3 subTaskReq).1.subtasks.lookup subtask.ID = some subtask) :=
  ⟨(create_known_parent store1 "s1" 2 2).1 storyReq (by decide),
   (create_known_parent store2 "t1" 3 3).2 subTaskReq (by decide)⟩

/-- C3: `CreateBacklog` never returns an error.  The returned backlog has the
request's title and description and no stories, and is the backlog stored under the
generated id; the stories and subtasks maps are unchanged; when the generated id
is not yet a key, there is exactly one backlog more and every backlog stored
before is still stored, unchanged, under its key. -/
theorem createBacklog_ok (s : Service) (uuid : String) (now1 now2 : Time)
    (req : CreateBacklogRequest) :
    ∃ backlog, (CreateBacklog s uuid now1 now2 req).2 = .ok backlog ∧
      backlog.ID = uuid ∧ backlog.Title = req.Title ∧
      backlog.Description = req.Description ∧ backlog.Stories = [] ∧
      (CreateBacklog s uuid now1 now2 req).1.backlogs.lookup uuid = some backlog ∧
      (CreateBacklog s uuid now1 now2 req).1.stories = s.stories ∧
      (CreateBacklog s uuid now1 now2 req).1.subtasks = s.subtasks ∧
      (uuid ∉ s.backlogs.keys →
        (CreateBacklog s uuid now1 now2 req).1.backlogs.len = s.backlogs.len + 1 ∧
        ∀ k ∈ s.backlogs.keys,
          (CreateBacklog s uuid now1 now2 req).1.backlogs.lookup k = s.backlogs.lookup k) := by
  refine ⟨_, rfl, rfl, rfl, rfl, rfl, GoMap.lookup_store_self _ _ _, rfl, rfl, ?_⟩
  intro h
  refine ⟨GoMap.len_store_of_not_mem _ _ _ h, ?_⟩
  intro k hk
  have hne : k ≠ uuid := fun e => h (e ▸ hk)
  exact GoMap.lookup_store_ne _ _ hne

theorem createBacklog_ok_witness :
    (CreateBacklog store1 "b2" 7 7 { Title := "Next", Description := "" }).1.backlogs.len
      = store1.backlogs.len + 1 ∧
    ∀ k ∈ store1.backlogs.keys,
      (CreateBacklog store1 "b2" 7 7 { Title := "Next", Description := "" }).1.backlogs.lookup k
        = store1.backlogs.lookup k := by
  obtain ⟨_, _, _, _, _, _, _, _, _, h⟩ :=
    createBacklog_ok store1 "b2" 7 7 { Title := "Next", Description := "" }
  exact h (by decide)

/-! ## Status updates -/

/-- C4: for an id that is a key of the stories map and any status `st`, after
`UpdateStoryStatus(id, st)`: if `st` is IN_PROGRESS and `ActualStart` was absent,
`ActualStart` is the current time and `ActualEnd` is unchanged; otherwise, if `st` is
DONE and `ActualEnd` was absent, `ActualEnd` is the current time and `ActualStart` is
unchanged; in every other case both are unchanged. -/
theorem updateStoryStatus_actual_dates (s : Service) (id : String) (st : Status)
    (now1 now : Time) (h : id ∈ s.stories.keys) :
    ∃ story story', s.stories.lookup id = some story ∧
      (UpdateStoryStatus s id st now1 now).1.stories.lookup id = some story' ∧
      (st = StatusInProgress ∧ story.ActualStart = none →
        story'.ActualStart = some now ∧ story'.ActualEnd = story.ActualEnd) ∧
      (¬ (st = StatusInProgress ∧ story.ActualStart = none) →
        st = StatusDone ∧ story.ActualEnd = none →
        story'.ActualEnd = some now ∧ story'.ActualStart = story.ActualStart) ∧
      (¬ (st = StatusInProgress ∧ story.ActualStart = none) →
        ¬ (st = StatusDone ∧ story.ActualEnd = none) →
        story'.ActualStart = story.ActualStart ∧ story'.ActualEnd = story.ActualEnd) := by
  obtain ⟨story, hs⟩ := (GoMap.mem_keys_iff _ _).1 h
  refine ⟨story, _, hs, UpdateStoryStatus_lookup hs st now1 now, ?_, ?_, ?_⟩
  · intro h1
    unfold updateStory
    dsimp only
    rw [if_pos h1]
    exact ⟨rfl, rfl⟩
  · intro h1 h2
    unfold updateStory
    dsimp only
    rw [if_neg h1, if_pos h2]
    exact ⟨rfl, rfl⟩
  · intro h1 h2
    unfold updateStory
    dsimp only
    rw [if_neg h1, if_neg h2]
    exact ⟨rfl, rfl⟩

theorem updateStoryStatus_actual_dates_witness :
    ∃ story story', store2.stories.lookup "s1" = some story ∧
      (UpdateStoryStatus store2 "s1" StatusInProgress 30 31).1.stories.lookup "s1"
        = some story' ∧
      (StatusInProgress = StatusInProgress ∧ story.ActualStart = none →
        story'.ActualStart = some 31 ∧ story'.ActualEnd = story.ActualEnd) ∧
      (¬ (StatusInProgress = StatusInProgress ∧ story.ActualStart = none) →
        StatusInProgress = StatusDone ∧ story.ActualEnd = none →
        story'.ActualEnd = some 31 ∧ story'.ActualStart = story.ActualStart) ∧
      (¬ (StatusInProgress = StatusInProgress ∧ story.ActualStart = none) →
        ¬ (StatusInProgress = StatusDone ∧ story.ActualEnd = none) →
        story'.ActualStart = story.ActualStart ∧ story'.ActualEnd = story.ActualEnd) :=
  updateStoryStatus_actual_dates store2 "s1" StatusInProgress 30 31 (by decide)

/-- C5: write-once timestamps.  Along any sequence of store operations (a create
stores under the new id that `uuid.New()` gave it), from any store, a story or subtask
that is stored stays stored under its id, and an `ActualStart` or `ActualEnd` that is
present is never changed or cleared.  In particular, for a story that has not started
yet, after `UpdateStoryStatus(id, IN_PROGRESS)` at time `t1` followed by
`UpdateStoryStatus(id, IN_PROGRESS)` at time `t2`, `ActualStart` is `t1`, also when other
store operations run between the two calls. -/
theorem actual_dates_write_once (s : Service) (ops : List Op) (hfresh : FreshRun s ops) :
    (∀ id story, s.stories.lookup id = some story →
      ∃ story', (run s ops).stories.lookup id = some story' ∧
        (∀ t, story.ActualStart = some t → story'.ActualStart = some t) ∧
        (∀ t, story.ActualEnd = some t → story'.ActualEnd = some t)) ∧
    (∀ id subtask, s.subtasks.lookup id = some subtask →
      ∃ subtask', (run s ops).subtasks.lookup id = some subtask' ∧
        (∀ t, subtask.ActualStart = some t → subtask'.ActualStart = some t) ∧
        (∀ t, subtask.ActualEnd = some t → subtask'.ActualEnd = some t)) ∧
    (∀ id story (u1 t1 u2 t2 : Time), s.stories.lookup id = some story →
      story.ActualStart = none →
      ∃ story',
        (UpdateStoryStatus (UpdateStoryStatus s id StatusInProgress u1 t1).1
          id StatusInProgress u2 t2).1.stories.lookup id = some story' ∧
        story'.ActualStart = some t1) ∧
    (∀ id story (u1 t1 u2 t2 : Time) (between : List Op),
      s.stories.lookup id = some story → story.ActualStart = none →
      FreshRun (UpdateStoryStatus s id StatusInProgress u1 t1).1 between →
      ∃ story',
        (UpdateStoryStatus (run (UpdateStoryStatus s id StatusInProgress u1 t1).1 between)
          id StatusInProgress u2 t2).1.stories.lookup id = some story' ∧
        story'.ActualStart = some t1) := by
  have h := keepsDates_run ops s hfresh
  have first : ∀ (story : Story) (u1 t1 : Time), story.ActualStart = none →
      (updateStory story StatusInProgress u1 t1).ActualStart = some t1 := by
    intro story u1 t1 hnone
    unfold updateStory
    dsimp only
    rw [if_pos ⟨rfl, hnone⟩]
  refine ⟨h.1, h.2, ?_, ?_⟩
  · intro id story u1 t1 u2 t2 hl hnone
    have h1 := UpdateStoryStatus_lookup hl StatusInProgress u1 t1
    have h2 := UpdateStoryStatus_lookup h1 StatusInProgress u2 t2
    exact ⟨_, h2, (storyDates_updateStory _ StatusInProgress u2 t2).1 t1
      (first story u1 t1 hnone)⟩
  · intro id story u1 t1 u2 t2 between hl hnone hf
    have h1 := UpdateStoryStatus_lookup hl StatusInProgress u1 t1
    obtain ⟨mid, hmid, hstart, _⟩ := (keepsDates_run between _ hf).1 id _ h1
    have h2 := UpdateStoryStatus_lookup hmid StatusInProgress u2 t2
    exact ⟨_, h2, (storyDates_updateStory mid StatusInProgress u2 t2).1 t1
      (hstart t1 (first story u1 t1 hnone))⟩

theorem actual_dates_write_once_witness :
    ∃ story',
      (UpdateStoryStatus (UpdateStoryStatus store2 "s1" StatusInProgress 10 10).1
        "s1" StatusInProgress 20 20).1.stories.lookup "s1" = some story' ∧
      story'.ActualStart = some 10 :=
  (actual_dates_write_once store2
    [Op.createStory "s2" 8 8 storyReq, Op.getBacklog "b1"] (by decide)).2.2.1
    "s1" story1 10 10 20 20 (by decide) rfl

/-- C6: for a stored story whose `ActualStart` and `ActualEnd` are both absent,
`UpdateStoryStatus(id, DONE)` leaves `ActualStart` absent and sets `ActualEnd` (to the
current time): a transition to DONE does not back-fill `ActualStart`. -/
theorem updateStoryStatus_done_no_backfill (s : Service) (id : String) (now1 now : Time)
    (story : Story) (h : s.stories.lookup id = some story)
    (hstart : story.ActualStart = none) (hend : story.ActualEnd = none) :
    ∃ story', (UpdateStoryStatus s id StatusDone now1 now).1.stories.lookup id = some story' ∧
      story'.ActualStart = none ∧ story'.ActualEnd = some now := by
  refine ⟨_, UpdateStoryStatus_lookup h StatusDone now1 now, ?_, ?_⟩
  · have hne : ¬ (StatusDone = StatusInProgress ∧ story.ActualStart = none) :=
      fun h' => absurd h'.1 (by decide)
    unfold updateStory
    dsimp only
    rw [if_neg hne, if_pos ⟨rfl, hend⟩]
    exact hstart
  · have hne : ¬ (StatusDone = StatusInProgress ∧ story.ActualStart = none) :=
      fun h' => absurd h'.1 (by decide)
    unfold updateStory
    dsimp only
    rw [if_neg hne, if_pos ⟨rfl, hend⟩]

theorem updateStoryStatus_done_no_backfill_witness :
    ∃ story', (UpdateStoryStatus store2 "s1" StatusDone 40 41).1.stories.lookup "s1"
        = some story' ∧
      story'.ActualStart = none ∧ story'.ActualEnd = some 41 :=
  updateStoryStatus_done_no_backfill store2 "s1" 40 41 story1 (by decide) rfl rfl

/-- C7: `UpdateStoryStatus(id, st)` returns an error exactly when `id` is not a key of
the stories map; when it fails the store is unchanged; when it succeeds the stored
story has status `st`, whatever its status was.  The same for `UpdateSubTaskStatus`
over the subtasks map. -/
theorem updateStatus_error_iff (s : Service) (id : String) (st : Status) (now1 now : Time) :
    (((∃ e, (UpdateStoryStatus s id st now1 now).2 = .error e) ↔ id ∉ s.stories.keys) ∧
      (id ∉ s.stories.keys → (UpdateStoryStatus s id st now1 now).1 = s) ∧
      (id ∈ s.stories.keys → (UpdateStoryStatus s id st now1 now).2 = .ok () ∧
        ∃ story', (UpdateStoryStatus s id st now1 now).1.stories.lookup id = some story' ∧
          story'.Status = st)) ∧
    (((∃ e, (UpdateSubTaskStatus s id st now1 now).2 = .error e) ↔ id ∉ s.subtasks.keys) ∧
      (id ∉ s.subtasks.keys → (UpdateSubTaskStatus s id st now1 now).1 = s) ∧
      (id ∈ s.subtasks.keys → (UpdateSubTaskStatus s id st now1 now).2 = .ok () ∧
        ∃ subtask', (UpdateSubTaskStatus s id st now1 now).1.subtasks.lookup id
            = some subtask' ∧
          subtask'.Status = st)) := by
  refine ⟨⟨⟨?_, ?_⟩, ?_, ?_⟩, ⟨⟨?_, ?_⟩, ?_, ?_⟩⟩
  · rintro ⟨e, he⟩ hk
    obtain ⟨story, hs⟩ := (GoMap.mem_keys_iff _ _).1 hk
    rw [UpdateStoryStatus_found hs] at he
    cases he
  · intro hk
    rw [UpdateStoryStatus_missing ((GoMap.lookup_eq_none_iff _ _).2 hk)]
    exact ⟨_, rfl⟩
  · intro hk
    rw [UpdateStoryStatus_missing ((GoMap.lookup_eq_none_iff _ _).2 hk)]
  · intro hk
    obtain ⟨story, hs⟩ := (GoMap.mem_keys_iff _ _).1 hk
    refine ⟨by rw [UpdateStoryStatus_found hs], _, UpdateStoryStatus_lookup hs st now1 now,
      updateStory_Status _ _ _ _⟩
  · rintro ⟨e, he⟩ hk
    obtain ⟨subtask, hs⟩ := (GoMap.mem_keys_iff _ _).1 hk
    rw [UpdateSubTaskStatus_found hs] at he
    cases he
  · intro hk
    rw [UpdateSubTaskStatus_missing ((GoMap.lookup_eq_none_iff _ _).2 hk)]
    exact ⟨_, rfl⟩
  · intro hk
    rw [UpdateSubTaskStatus_missing ((GoMap.lookup_eq_none_iff _ _).2 hk)]
  · intro hk
    obtain ⟨subtask, hs⟩ := (GoMap.mem_keys_iff _ _).1 hk
    refine ⟨by rw [UpdateSubTaskStatus_found hs], _,
      UpdateSubTaskStatus_lookup hs st now1 now, updateSubTask_Status _ _ _ _⟩

theorem updateStatus_error_iff_witness :
    (UpdateStoryStatus store3 "nope" StatusDone 50 51).1 = store3 ∧
    ((UpdateStoryStatus store3 "s1" StatusBlocked 50 51).2 = .ok () ∧
      ∃ story', (UpdateStoryStatus store3 "s1" StatusBlocked 50 51).1.stories.lookup "s1"
          = some story' ∧ story'.Status = StatusBlocked) ∧
    (UpdateSubTaskStatus store3 "nope" StatusDone 50 51).1 = store3 ∧
    ((UpdateSubTaskStatus store3 "t1" StatusDone 50 51).2 = .ok () ∧
      ∃ subtask', (UpdateSubTaskStatus store3 "t1" StatusDone 50 51).1.subtasks.lookup "t1"
          = some subtask' ∧ subtask'.Status = StatusDone) :=
  ⟨(updateStatus_error_iff store3 "nope" StatusDone 50 51).1.2.1 (by decide),
   (updateStatus_error_iff store3 "s1" StatusBlocked 50 51).1.2.2 (by decide),
   (updateStatus_error_iff store3 "nope" StatusDone 50 51).2.2.1 (by decide),
   (updateStatus_error_iff store3 "t1" StatusDone 50 51).2.2.2 (by decide)⟩

/-! ## Reading with children -/

/-- C8: for an id that is a key of the backlogs map, `GetBacklog(id)` succeeds; its
`Stories` are, up to order and each once, the stored stories whose `BacklogID` is `id`
(compared without their child lists), and the `SubTasks` of each returned story are,
up to order and each once, the stored subtasks whose `StoryID` is that story's id.
So the number of returned stories is the number of stored stories of the backlog,
and the number of subtasks of each is the number of stored subtasks of that story. -/
theorem getBacklog_hydrated (s : Service) (id : String) (h : id ∈ s.backlogs.keys) :
    ∃ backlog, (GetBacklog s id).2 = .ok backlog ∧
      List.Perm (backlog.Stories.map Story.withoutSubTasks)
        ((s.stories.stored.filter (fun story => decide (story.BacklogID = id))).map
          Story.withoutSubTasks) ∧
      (∀ story ∈ backlog.Stories,
        List.Perm story.SubTasks
          (s.subtasks.stored.filter (fun subtask => decide (subtask.StoryID = story.ID)))) ∧
      backlog.Stories.length
        = s.stories.stored.countP (fun story => decide (story.BacklogID = id)) ∧
      (∀ story ∈ backlog.Stories,
        story.SubTasks.length
          = s.subtasks.stored.countP (fun subtask => decide (subtask.StoryID = story.ID))) := by
  obtain ⟨b, hb⟩ := (GoMap.mem_keys_iff _ _).1 h
  rw [GetBacklog_found hb]
  refine ⟨_, rfl, ?_, ?_, ?_, ?_⟩
  · show List.Perm ((loadStories s id).map Story.withoutSubTasks) _
    rw [loadStories_eq_stored, map_withoutSubTasks_hydrate]
  · intro story hst
    rw [mem_loadStories hst, loadSubTasks_eq_stored]
  · show (loadStories s id).length = _
    rw [loadStories_eq_stored, List.length_map, List.countP_eq_length_filter]
  · intro story hst
    rw [mem_loadStories hst, loadSubTasks_eq_stored, List.countP_eq_length_filter]

theorem getBacklog_hydrated_witness :
    ∃ backlog, (GetBacklog store3 "b1").2 = .ok backlog ∧
      List.Perm (backlog.Stories.map Story.withoutSubTasks)
        ((store3.stories.stored.filter (fun story => decide (story.BacklogID = "b1"))).map
          Story.withoutSubTasks) ∧
      (∀ story ∈ backlog.Stories,
        List.Perm story.SubTasks
          (store3.subtasks.stored.filter
            (fun subtask => decide (subtask.StoryID = story.ID)))) ∧
      backlog.Stories.length
        = store3.stories.stored.countP (fun story => decide (story.BacklogID = "b1")) ∧
      (∀ story ∈ backlog.Stories,
        story.SubTasks.length
          = store3.subtasks.stored.countP
              (fun subtask => decide (subtask.StoryID = story.ID))) :=
  getBacklog_hydrated store3 "b1" (by decide)

/-- C10: for any string `b`, key of the backlogs map or not, `GetStoriesByBacklog(b)`
returns no error but, up to order and each once, the stored stories whose
`BacklogID` is `b`, each with the stored subtasks whose `StoryID` is its id; the result
is empty when no stored story matches.  For any `sid`, `GetSubTasksByStory(sid)`
returns no error but, up to order and each once, the stored subtasks whose `StoryID`
is `sid`. -/
theorem list_by_parent (s : Service) :
    (∀ b : String, ∃ l, GetStoriesByBacklog s b = .ok l ∧
      List.Perm (l.map Story.withoutSubTasks)
        ((s.stories.stored.filter (fun story => decide (story.BacklogID = b))).map
          Story.withoutSubTasks) ∧
      (∀ story ∈ l,
        List.Perm story.SubTasks
          (s.subtasks.stored.filter (fun subtask => decide (subtask.StoryID = story.ID)))) ∧
      ((∀ story ∈ s.stories.stored, story.BacklogID ≠ b) → l = [])) ∧
    (∀ sid : String, ∃ l, GetSubTasksByStory s sid = .ok l ∧
      List.Perm l
        (s.subtasks.stored.filter (fun subtask => decide (subtask.StoryID = sid)))) := by
  constructor
  · intro b
    refine ⟨loadStories s b, GetStoriesByBacklog_eq s b, ?_, ?_, ?_⟩
    · rw [loadStories_eq_stored, map_withoutSubTasks_hydrate]
    · intro story hst
      rw [mem_loadStories hst, loadSubTasks_eq_stored]
    · intro hno
      rw [loadStories_eq_stored, List.map_eq_nil_iff, List.filter_eq_nil_iff]
      intro story hst
      simpa using hno story hst
  · intro sid
    refine ⟨_, rfl, ?_⟩
    rw [GoMap.stored_eq_values]

theorem list_by_parent_witness :
    ∃ l, GetStoriesByBacklog store3 "b7" = .ok l ∧ l = [] := by
  obtain ⟨l, h1, _, _, h4⟩ := (list_by_parent store3).1 "b7"
  exact ⟨l, h1, h4 (by decide)⟩

/-- C9: in every store the program can be in, `GetBacklog(id)`, `GetStory(id)` and
`GetSubTask(id)` each return an error exactly when `id` is not a key of the backlogs,
stories or subtasks map; a result is either an error or an entity, never both; and
an entity that is returned has `ID` equal to `id`. -/
theorem get_by_id (s : Service) (hs : Reachable s) (id : String) :
    (((∃ e, (GetBacklog s id).2 = .error e) ↔ id ∉ s.backlogs.keys) ∧
      (∀ backlog, (GetBacklog s id).2 = .ok backlog → backlog.ID = id)) ∧
    (((∃ e, (GetStory s id).2 = .error e) ↔ id ∉ s.stories.keys) ∧
      (∀ story, (GetStory s id).2 = .ok story → story.ID = id)) ∧
    (((∃ e, GetSubTask s id = .error e) ↔ id ∉ s.subtasks.keys) ∧
      (∀ subtask, GetSubTask s id = .ok subtask → subtask.ID = id)) := by
  have hk := keyed_of_reachable hs
  refine ⟨?_, ?_, ?_⟩
  · cases hl : s.backlogs.lookup id with
    | none =>
      rw [GetBacklog_missing hl]
      refine ⟨⟨fun _ => (GoMap.lookup_eq_none_iff _ _).1 hl, fun _ => ⟨_, rfl⟩⟩, ?_⟩
      intro b hb
      cases hb
    | some backlog =>
      rw [GetBacklog_found hl]
      refine ⟨⟨?_, ?_⟩, ?_⟩
      · rintro ⟨e, he⟩
        cases he
      · intro hn
        rw [(GoMap.lookup_eq_none_iff _ _).2 hn] at hl
        cases hl
      · intro b hb
        cases hb
        exact hk.1 id backlog hl
  · cases hl : s.stories.lookup id with
    | none =>
      rw [GetStory_missing hl]
      refine ⟨⟨fun _ => (GoMap.lookup_eq_none_iff _ _).1 hl, fun _ => ⟨_, rfl⟩⟩, ?_⟩
      intro b hb
      cases hb
    | some story =>
      rw [GetStory_found hl]
      refine ⟨⟨?_, ?_⟩, ?_⟩
      · rintro ⟨e, he⟩
        cases he
      · intro hn
        rw [(GoMap.lookup_eq_none_iff _ _).2 hn] at hl
        cases hl
      · intro b hb
        cases hb
        exact hk.2.1 id story hl
  · unfold GetSubTask
    cases hl : s.subtasks.lookup id with
    | none =>
      refine ⟨⟨fun _ => (GoMap.lookup_eq_none_iff _ _).1 hl, fun _ => ⟨_, rfl⟩⟩, ?_⟩
      intro b hb
      cases hb
    | some subtask =>
      refine ⟨⟨?_, ?_⟩, ?_⟩
      · rintro ⟨e, he⟩
        cases he
      · intro hn
        rw [(GoMap.lookup_eq_none_iff _ _).2 hn] at hl
        cases hl
      · intro b hb
        cases hb
        exact hk.2.2 id subtask hl

theorem get_by_id_witness :
    (((∃ e, (GetBacklog store3 "s1").2 = .error e) ↔ "s1" ∉ store3.backlogs.keys) ∧
      (∀ backlog, (GetBacklog store3 "s1").2 = .ok backlog → backlog.ID = "s1")) ∧
    (((∃ e, (GetStory store3 "s1").2 = .error e) ↔ "s1" ∉ store3.stories.keys) ∧
      (∀ story, (GetStory store3 "s1").2 = .ok story → story.ID = "s1")) ∧
    (((∃ e, GetSubTask store3 "s1" = .error e) ↔ "s1" ∉ store3.subtasks.keys) ∧
      (∀ subtask, GetSubTask store3 "s1" = .ok subtask → subtask.ID = "s1")) :=
  get_by_id store3
    (Reachable.step (Op.createSubTask "t1" 3 3 subTaskReq)
      (Reachable.step (Op.createStory "s1" 2 2 storyReq)
        (Reachable.step (Op.createBacklog "b1" 1 1 { Title := "Release", Description := "" })
          Reachable.init)))
    "s1"

/-! ## Dashboard -/

/-- C11: `GetDashboardStats` returns the sizes of the three maps as totals and two
histograms: a status is a key of `story_status` exactly when some stored story has
it, and its value is the number of such stories, never zero; the same for
`subtask_status` over subtasks.  After creating 2 backlogs, 3 stories (one then set to
DONE) and 1 subtask the totals are 2, 3, 1, `story_status` is TODO:2, DONE:1 and
`subtask_status` is TODO:1. -/
theorem dashboard_stats :
    (∀ s : Service, ∃ stats, GetDashboardStats s = .ok stats ∧
      stats.total_backlogs = s.backlogs.len ∧
      stats.total_stories = s.stories.len ∧
      stats.total_subtasks = s.subtasks.len ∧
      (∀ st : Status, st ∈ stats.story_status.keys ↔
        ∃ story ∈ s.stories.stored, story.Status = st) ∧
      (∀ (st : Status) (n : Nat), stats.story_status.lookup st = some n →
        0 < n ∧ n = s.stories.stored.countP (fun story => decide (story.Status = st))) ∧
      (∀ st : Status, st ∈ stats.subtask_status.keys ↔
        ∃ subtask ∈ s.subtasks.stored, subtask.Status = st) ∧
      (∀ (st : Status) (n : Nat), stats.subtask_status.lookup st = some n →
        0 < n ∧
        n = s.subtasks.stored.countP (fun subtask => decide (subtask.Status = st)))) ∧
    (∃ stats, GetDashboardStats dashboardStore = .ok stats ∧
      stats.total_backlogs = 2 ∧ stats.total_stories = 3 ∧ stats.total_subtasks = 1 ∧
      List.Perm stats.story_status.entries [(StatusTodo, 2), (StatusDone, 1)] ∧
      List.Perm stats.subtask_status.entries [(StatusTodo, 1)]) := by
  constructor
  · intro s
    refine ⟨_, rfl, rfl, rfl, rfl, ?_, ?_, ?_, ?_⟩
    · intro st
      rw [GoMap.mem_keys_iff]
      show (∃ v, (List.foldl incr GoMap.empty _).lookup st = some v) ↔ _
      rw [lookup_histogram, count_status_stories]
      by_cases hc : s.stories.stored.countP (fun story => decide (story.Status = st)) = 0
      · rw [if_pos hc]
        constructor
        · rintro ⟨v, hv⟩; cases hv
        · rintro ⟨story, hm, hst⟩
          rw [List.countP_eq_zero] at hc
          exact absurd (by simpa using hst) (hc story hm)
      · rw [if_neg hc]
        refine ⟨fun _ => ?_, fun _ => ⟨_, rfl⟩⟩
        have hpos := Nat.pos_of_ne_zero hc
        rw [List.countP_pos_iff] at hpos
        obtain ⟨story, hm, hst⟩ := hpos
        exact ⟨story, hm, by simpa using hst⟩
    · intro st n hn
      change (List.foldl incr GoMap.empty _).lookup st = some n at hn
      rw [lookup_histogram, count_status_stories] at hn
      by_cases hc : s.stories.stored.countP (fun story => decide (story.Status = st)) = 0
      · rw [if_pos hc] at hn; cases hn
      · rw [if_neg hc] at hn
        cases hn
        exact ⟨Nat.pos_of_ne_zero hc, rfl⟩
    · intro st
      rw [GoMap.mem_keys_iff]
      show (∃ v, (List.foldl incr GoMap.empty _).lookup st = some v) ↔ _
      rw [lookup_histogram, count_status_subtasks]
      by_cases hc : s.subtasks.stored.countP (fun subtask => decide (subtask.Status = st)) = 0
      · rw [if_pos hc]
        constructor
        · rintro ⟨v, hv⟩; cases hv
        · rintro ⟨subtask, hm, hst⟩
          rw [List.countP_eq_zero] at hc
          exact absurd (by simpa using hst) (hc subtask hm)
      · rw [if_neg hc]
        refine ⟨fun _ => ?_, fun _ => ⟨_, rfl⟩⟩
        have hpos := Nat.pos_of_ne_zero hc
        rw [List.countP_pos_iff] at hpos
        obtain ⟨subtask, hm, hst⟩ := hpos
        exact ⟨subtask, hm, by simpa using hst⟩
    · intro st n hn
      change (List.foldl incr GoMap.empty _).lookup st = some n at hn
      rw [lookup_histogram, count_status_subtasks] at hn
      by_cases hc : s.subtasks.stored.countP (fun subtask => decide (subtask.Status = st)) = 0
      · rw [if_pos hc] at hn; cases hn
      · rw [if_neg hc] at hn
        cases hn
        exact ⟨Nat.pos_of_ne_zero hc, rfl⟩
  · exact ⟨_, rfl, by decide, by decide, by decide, by decide, by decide⟩


theorem dashboard_stats_witness :
    0 < 2 ∧ 2 = dashboardStore.stories.stored.countP
      (fun story => decide (story.Status = StatusTodo)) := by
  obtain ⟨stats, hok, _, _, _, _, h, _⟩ := dashboard_stats.1 dashboardStore
  cases hok
  exact h StatusTodo 2 (by decide)

/-! ## Nothing is removed -/

/-- C13: no operation removes data.  After any one call (create, get, list, status
update, dashboard), every key of the backlogs, stories or subtasks map is still a
key of the same map; so along any sequence of calls every key stays and the three
sizes do not decrease. -/
theorem no_key_removed (s : Service) :
    (∀ op : Op,
      (∀ k ∈ s.backlogs.keys, k ∈ (op.apply s).backlogs.keys) ∧
      (∀ k ∈ s.stories.keys, k ∈ (op.apply s).stories.keys) ∧
      (∀ k ∈ s.subtasks.keys, k ∈ (op.apply s).subtasks.keys)) ∧
    (∀ ops : List Op,
      (∀ k ∈ s.backlogs.keys, k ∈ (run s ops).backlogs.keys) ∧
      (∀ k ∈ s.stories.keys, k ∈ (run s ops).stories.keys) ∧
      (∀ k ∈ s.subtasks.keys, k ∈ (run s ops).subtasks.keys) ∧
      s.backlogs.len ≤ (run s ops).backlogs.len ∧
      s.stories.len ≤ (run s ops).stories.len ∧
      s.subtasks.len ≤ (run s ops).subtasks.len) := by
  refine ⟨fun op => keys_apply s op, fun ops => ?_⟩
  have h := keys_run ops s
  exact ⟨h.1, h.2.1, h.2.2, GoMap.len_le_of_keys h.1, GoMap.len_le_of_keys h.2.1,
    GoMap.len_le_of_keys h.2.2⟩

theorem no_key_removed_witness :
    "s1" ∈ (run store3
      [Op.createStory "s1" 9 9 storyReq, Op.getAllBacklogs,
       Op.updateStoryStatus "s1" StatusDone 10 10]).stories.keys :=
  ((no_key_removed store3).2
    [Op.createStory "s1" 9 9 storyReq, Op.getAllBacklogs,
     Op.updateStoryStatus "s1" StatusDone 10 10]).2.1 "s1" (by decide)


/-! ## Stored parents after a read -/

/-- C12 fails on the code: in the store with backlog `b1`, its story `s1` and the
subtask `t1` of that story, which the program can be in, `GetBacklog(b1)` leaves the
stored story `s1` with `SubTasks = [t1]` and the stored backlog `b1` with one story in
`Stories`; `GetStory(s1)` and `GetAllBacklogs()` leave the stored story `s1` with
`SubTasks = [t1]`.  The stores after these reads are stores the program can be in. -/
theorem read_stores_children :
    Reachable (GetBacklog store3 "b1").1 ∧
    ((GetBacklog store3 "b1").1.stories.lookup "s1").map (fun story => story.SubTasks)
      = some [subtask1] ∧
    ((GetBacklog store3 "b1").1.backlogs.lookup "b1").map
      (fun backlog => backlog.Stories.length) = some 1 ∧
    ((GetStory store3 "s1").1.stories.lookup "s1").map (fun story => story.SubTasks)
      = some [subtask1] ∧
    ((GetAllBacklogs store3).1.stories.lookup "s1").map (fun story => story.SubTasks)
      = some [subtask1] := by
  refine ⟨?_, by decide, by decide, by decide, by decide⟩
  exact Reachable.step (Op.getBacklog "b1")
    (Reachable.step (Op.createSubTask "t1" 3 3 subTaskReq)
      (Reachable.step (Op.createStory "s1" 2 2 storyReq)
        (Reachable.step (Op.createBacklog "b1" 1 1 { Title := "Release", Description := "" })
          Reachable.init)))

/-! ## Frame of the status updates -/

/-- C14: `UpdateStoryStatus(id, st)` leaves the backlogs and subtasks maps and every
story stored under another id unchanged, and of the story stored under `id` it
leaves `ID`, `BacklogID`, `Title`, `Description`, `JiraURL`, `EffortOrigin`, `PIC`, `PlanStart`,
`PlanEnd`, `CreatedAt` (and `SubTasks`) unchanged.  The same frame holds for
`UpdateSubTaskStatus`.  So along any sequence of calls whose generated ids are new, a
stored story keeps its `ID` and `BacklogID` and a stored subtask its `ID` and `StoryID`. -/
theorem updateStatus_frame (s : Service) (id : String) (st : Status) (now1 now : Time) :
    ((UpdateStoryStatus s id st now1 now).1.backlogs = s.backlogs ∧
      (UpdateStoryStatus s id st now1 now).1.subtasks = s.subtasks ∧
      (∀ k, k ≠ id →
        (UpdateStoryStatus s id st now1 now).1.stories.lookup k = s.stories.lookup k) ∧
      (∀ story, s.stories.lookup id = some story →
        ∃ story', (UpdateStoryStatus s id st now1 now).1.stories.lookup id = some story' ∧
          story'.ID = story.ID ∧ story'.BacklogID = story.BacklogID ∧
          story'.Title = story.Title ∧ story'.Description = story.Description ∧
          story'.JiraURL = story.JiraURL ∧ story'.EffortOrigin = story.EffortOrigin ∧
          story'.PIC = story.PIC ∧ story'.PlanStart = story.PlanStart ∧
          story'.PlanEnd = story.PlanEnd ∧ story'.CreatedAt = story.CreatedAt ∧
          story'.SubTasks = story.SubTasks)) ∧
    ((UpdateSubTaskStatus s id st now1 now).1.backlogs = s.backlogs ∧
      (UpdateSubTaskStatus s id st now1 now).1.stories = s.stories ∧
      (∀ k, k ≠ id →
        (UpdateSubTaskStatus s id st now1 now).1.subtasks.lookup k = s.subtasks.lookup k) ∧
      (∀ subtask, s.subtasks.lookup id = some subtask →
        ∃ subtask', (UpdateSubTaskStatus s id st now1 now).1.subtasks.lookup id
            = some subtask' ∧
          subtask'.ID = subtask.ID ∧ subtask'.StoryID = subtask.StoryID ∧
          subtask'.Title = subtask.Title ∧ subtask'.Description = subtask.Description ∧
          subtask'.Effort = subtask.Effort ∧ subtask'.JiraURL = subtask.JiraURL ∧
          subtask'.PIC = subtask.PIC ∧ subtask'.PlanStart = subtask.PlanStart ∧
          subtask'.PlanEnd = subtask.PlanEnd ∧ subtask'.CreatedAt = subtask.CreatedAt)) ∧
    (∀ ops : List Op, FreshRun s ops →
      (∀ k story, s.stories.lookup k = some story →
        ∃ story', (run s ops).stories.lookup k = some story' ∧
          story'.ID = story.ID ∧ story'.BacklogID = story.BacklogID) ∧
      (∀ k subtask, s.subtasks.lookup k = some subtask →
        ∃ subtask', (run s ops).subtasks.lookup k = some subtask' ∧
          subtask'.ID = subtask.ID ∧ subtask'.StoryID = subtask.StoryID)) := by
  refine ⟨?_, ?_, ?_⟩
  · cases hl : s.stories.lookup id with
    | none =>
      rw [UpdateStoryStatus_missing hl]
      refine ⟨rfl, rfl, fun _ _ => rfl, ?_⟩
      intro story h
      cases h
    | some story =>
      rw [UpdateStoryStatus_found hl]
      refine ⟨rfl, rfl, fun k hk => GoMap.lookup_modify_ne _ _ hk, ?_⟩
      intro story₀ h
      cases h
      refine ⟨updateStory story st now1 now, ?_, updateStory_frame story st now1 now⟩
      show (s.stories.modify id _).lookup id = _
      rw [GoMap.lookup_modify_self, hl]
      rfl
  · cases hl : s.subtasks.lookup id with
    | none =>
      rw [UpdateSubTaskStatus_missing hl]
      refine ⟨rfl, rfl, fun _ _ => rfl, ?_⟩
      intro subtask h
      cases h
    | some subtask =>
      rw [UpdateSubTaskStatus_found hl]
      refine ⟨rfl, rfl, fun k hk => GoMap.lookup_modify_ne _ _ hk, ?_⟩
      intro subtask₀ h
      cases h
      refine ⟨updateSubTask subtask st now1 now, ?_, updateSubTask_frame subtask st now1 now⟩
      show (s.subtasks.modify id _).lookup id = _
      rw [GoMap.lookup_modify_self, hl]
      rfl
  · intro ops hf
    exact keepsRefs_run ops s hf

theorem updateStatus_frame_witness :
    (∃ story', (UpdateStoryStatus store3 "s1" StatusDone 8 9).1.stories.lookup "s1"
        = some story' ∧
      story'.ID = story1.ID ∧ story'.BacklogID = story1.BacklogID ∧
      story'.Title = story1.Title ∧ story'.Description = story1.Description ∧
      story'.JiraURL = story1.JiraURL ∧ story'.EffortOrigin = story1.EffortOrigin ∧
      story'.PIC = story1.PIC ∧ story'.PlanStart = story1.PlanStart ∧
      story'.PlanEnd = story1.PlanEnd ∧ story'.CreatedAt = story1.CreatedAt ∧
      story'.SubTasks = story1.SubTasks) ∧
    (∃ subtask', (run store3 [Op.createSubTask "t2" 8 8 subTaskReq,
        Op.updateSubTaskStatus "t1" StatusDone 9 9]).subtasks.lookup "t1" = some subtask' ∧
      subtask'.ID = subtask1.ID ∧ subtask'.StoryID = subtask1.StoryID) :=
  ⟨(updateStatus_frame store3 "s1" StatusDone 8 9).1.2.2.2 story1 (by decide),
   ((updateStatus_frame store3 "s1" StatusDone 8 9).2.2
      [Op.createSubTask "t2" 8 8 subTaskReq, Op.updateSubTaskStatus "t1" StatusDone 9 9]
      (by decide)).2 "t1" subtask1 (by decide)⟩


/-! ## The HTTP layer -/

/-- C15 fails on the code: in the store with the single backlog `b1`,
`Handler.CreateStory` on a well-formed body whose `backlog_id` is unknown and
`Handler.CreateSubTask` on a well-formed body whose `story_id` is unknown answer 500
with the store's not-found message, and leave the store as it is; the handlers
`GetBacklog`, `GetStory`, `GetSubTask`, `UpdateStoryStatus` and `UpdateSubTaskStatus` answer
404 on an unknown id in the same store. -/
theorem create_handlers_answer_500 :
    (Handler.CreateStory store1 "s9" 5 5
        (some { storyReq with BacklogID := "nope" })).2.statusCode = 500 ∧
    (Handler.CreateStory store1 "s9" 5 5
        (some { storyReq with BacklogID := "nope" })).2.body.Error = "backlog not found" ∧
    (Handler.CreateSubTask store1 "t9" 5 5 (some subTaskReq)).2.statusCode = 500 ∧
    (Handler.CreateSubTask store1 "t9" 5 5 (some subTaskReq)).2.body.Error
      = "story not found" ∧
    (Handler.GetBacklog store1 "nope").2.statusCode = 404 ∧
    (Handler.GetStory store1 "nope").2.statusCode = 404 ∧
    (Handler.GetSubTask store1 "nope").2.statusCode = 404 ∧
    (Handler.UpdateStoryStatus store1 "nope" 5 5 (some { Status := StatusDone })).2.statusCode
      = 404 ∧
    (Handler.UpdateSubTaskStatus store1 "nope" 5 5
        (some { Status := StatusDone })).2.statusCode = 404 := by
  refine ⟨by decide, by decide, by decide, by decide, by decide, by decide, by decide,
    by decide, by decide⟩

/-! ## The two status updates agree -/

/-- C18: `UpdateSubTaskStatus` does to a subtask what `UpdateStoryStatus` does to a
story.  For a stored story and a stored subtask with the same prior `ActualStart` and
`ActualEnd` (whatever their prior statuses), the same new status and the same clock
values, both calls succeed and the resulting `Status`, `ActualStart`, `ActualEnd` and
`UpdatedAt` are the same; and each call fails exactly when the id is not a key of its
map. -/
theorem update_same_semantics (s : Service) (st : Status) (now1 now : Time) :
    (∀ (id id' : String) (story : Story) (subtask : SubTask),
      s.stories.lookup id = some story → s.subtasks.lookup id' = some subtask →
      story.ActualStart = subtask.ActualStart → story.ActualEnd = subtask.ActualEnd →
      ∃ story' subtask',
        (UpdateStoryStatus s id st now1 now).1.stories.lookup id = some story' ∧
        (UpdateSubTaskStatus s id' st now1 now).1.subtasks.lookup id' = some subtask' ∧
        (UpdateStoryStatus s id st now1 now).2 = .ok () ∧
        (UpdateSubTaskStatus s id' st now1 now).2 = .ok () ∧
        story'.Status = subtask'.Status ∧ story'.ActualStart = subtask'.ActualStart ∧
        story'.ActualEnd = subtask'.ActualEnd ∧ story'.UpdatedAt = subtask'.UpdatedAt) ∧
    (∀ id : String,
      ((∃ e, (UpdateStoryStatus s id st now1 now).2 = .error e) ↔ id ∉ s.stories.keys) ∧
      ((∃ e, (UpdateSubTaskStatus s id st now1 now).2 = .error e) ↔
        id ∉ s.subtasks.keys)) := by
  constructor
  · intro id id' story subtask hs ht h1 h2
    refine ⟨_, _, UpdateStoryStatus_lookup hs st now1 now,
      UpdateSubTaskStatus_lookup ht st now1 now, ?_, ?_, ?_⟩
    · rw [UpdateStoryStatus_found hs]
    · rw [UpdateSubTaskStatus_found ht]
    · unfold updateStory updateSubTask
      dsimp only
      rw [h1, h2]
      split_ifs <;> exact ⟨rfl, rfl, rfl, rfl⟩
  · intro id
    constructor
    · cases hl : s.stories.lookup id with
      | none =>
        rw [UpdateStoryStatus_missing hl]
        exact ⟨fun _ => (GoMap.lookup_eq_none_iff _ _).1 hl, fun _ => ⟨_, rfl⟩⟩
      | some story =>
        rw [UpdateStoryStatus_found hl]
        constructor
        · rintro ⟨e, he⟩
          cases he
        · intro hn
          rw [(GoMap.lookup_eq_none_iff _ _).2 hn] at hl
          cases hl
    · cases hl : s.subtasks.lookup id with
      | none =>
        rw [UpdateSubTaskStatus_missing hl]
        exact ⟨fun _ => (GoMap.lookup_eq_none_iff _ _).1 hl, fun _ => ⟨_, rfl⟩⟩
      | some subtask =>
        rw [UpdateSubTaskStatus_found hl]
        constructor
        · rintro ⟨e, he⟩
          cases he
        · intro hn
          rw [(GoMap.lookup_eq_none_iff _ _).2 hn] at hl
          cases hl

theorem update_same_semantics_witness :
    ∃ story' subtask',
      (UpdateStoryStatus store3 "s1" StatusDone 8 9).1.stories.lookup "s1" = some story' ∧
      (UpdateSubTaskStatus store3 "t1" StatusDone 8 9).1.subtasks.lookup "t1"
        = some subtask' ∧
      (UpdateStoryStatus store3 "s1" StatusDone 8 9).2 = .ok () ∧
      (UpdateSubTaskStatus store3 "t1" StatusDone 8 9).2 = .ok () ∧
      story'.Status = subtask'.Status ∧ story'.ActualStart = subtask'.ActualStart ∧
      story'.ActualEnd = subtask'.ActualEnd ∧ story'.UpdatedAt = subtask'.UpdatedAt :=
  (update_same_semantics store3 StatusDone 8 9).1 "s1" "t1" story1 subtask1
    (by decide) (by decide) rfl rfl


/-! ## Listing all backlogs -/

/-- C17: in every store the program can be in, `GetAllBacklogs` returns no error but a
list with exactly one entry per key of the backlogs map (so the empty list when
there is none), and for every key `b` the entry with `ID = b` has the `Title`,
`Description`, `CreatedAt` and `UpdatedAt` of the value of `GetBacklog(b)` in that store and,
up to order, the same stories, each with, up to order, the same subtasks. -/
theorem getAllBacklogs_as_getBacklog (s : Service) (hs : Reachable s) :
    ∃ l, (GetAllBacklogs s).2 = .ok l ∧
      List.Perm (l.map (fun e => e.ID)) s.backlogs.keys ∧
      l.length = s.backlogs.len ∧
      (s.backlogs.keys = [] → l = []) ∧
      (∀ b ∈ s.backlogs.keys, ∃ e g, e ∈ l ∧ (GetBacklog s b).2 = .ok g ∧
        e.ID = b ∧ e.Title = g.Title ∧ e.Description = g.Description ∧
        e.CreatedAt = g.CreatedAt ∧ e.UpdatedAt = g.UpdatedAt ∧
        ∃ l', List.Perm e.Stories l' ∧ List.Forall₂ Story.SameUpToOrder l' g.Stories) := by
  have hk := keyed_of_reachable hs
  refine ⟨_, GetAllBacklogs_result s, ?_, ?_, ?_, ?_⟩
  · rw [List.map_map]
    show List.Perm (s.backlogs.values.map (fun b => b.ID)) _
    rw [keyed_values_ID hk]
  · simp [GoMap.values, GoMap.len]
  · intro h0
    have : s.backlogs.entries = [] := by
      simpa [GoMap.keys] using h0
    simp [GoMap.values, this]
  · intro b hb
    obtain ⟨B, hB⟩ := (GoMap.mem_keys_iff _ _).1 hb
    have hid : B.ID = b := hk.1 b B hB
    refine ⟨{ B with Stories := loadStories s B.ID }, { B with Stories := loadStories s b },
      ?_, ?_, hid, rfl, rfl, rfl, rfl, loadStories s b, ?_, ?_⟩
    · exact List.mem_map.2 ⟨B, GoMap.mem_values_of_lookup hB, rfl⟩
    · rw [GetBacklog_found hB]
    · show List.Perm (loadStories s B.ID) _
      rw [hid]
    · exact List.forall₂_same.2 (fun _ _ => ⟨rfl, List.Perm.refl _⟩)

theorem getAllBacklogs_as_getBacklog_witness :
    ∃ l, (GetAllBacklogs store3).2 = .ok l ∧
      List.Perm (l.map (fun e => e.ID)) store3.backlogs.keys ∧
      l.length = store3.backlogs.len ∧
      (store3.backlogs.keys = [] → l = []) ∧
      (∀ b ∈ store3.backlogs.keys, ∃ e g, e ∈ l ∧ (GetBacklog store3 b).2 = .ok g ∧
        e.ID = b ∧ e.Title = g.Title ∧ e.Description = g.Description ∧
        e.CreatedAt = g.CreatedAt ∧ e.UpdatedAt = g.UpdatedAt ∧
        ∃ l', List.Perm e.Stories l' ∧ List.Forall₂ Story.SameUpToOrder l' g.Stories) :=
  getAllBacklogs_as_getBacklog store3
    (Reachable.step (Op.createSubTask "t1" 3 3 subTaskReq)
      (Reachable.step (Op.createStory "s1" 2 2 storyReq)
        (Reachable.step (Op.createBacklog "b1" 1 1 { Title := "Release", Description := "" })
          Reachable.init)))


/-! ## The statuses that get stored -/

/-- C19, as amended: in the store reached from the empty store by any sequence of
calls in which every status passed to `UpdateStoryStatus` or `UpdateSubTaskStatus` is
one of TODO, IN_PROGRESS, DONE, BLOCKED, the status of every stored story and subtask
is one of those four, and so is every key of the two dashboard histograms. -/
theorem status_closed_for_valid_arguments (ops : List Op)
    (hv : ∀ op ∈ ops, op.ValidStatus) :
    (∀ k story, (run NewService ops).stories.lookup k = some story →
      ValidStatus story.Status) ∧
    (∀ k subtask, (run NewService ops).subtasks.lookup k = some subtask →
      ValidStatus subtask.Status) ∧
    (∀ stats, GetDashboardStats (run NewService ops) = .ok stats →
      (∀ st ∈ stats.story_status.keys, ValidStatus st) ∧
      (∀ st ∈ stats.subtask_status.keys, ValidStatus st)) := by
  have h := statusClosed_run ops NewService ⟨GoMap.all_empty _, GoMap.all_empty _⟩ hv
  refine ⟨h.1, h.2, ?_⟩
  intro stats hst
  cases hst
  constructor
  · intro st hm
    have hm' := (mem_keys_histogram _ st).1 hm
    obtain ⟨story, hstory, rfl⟩ := List.mem_map.1 hm'
    obtain ⟨k, hk⟩ := GoMap.lookup_of_mem_values _ hstory
    exact h.1 k story hk
  · intro st hm
    have hm' := (mem_keys_histogram _ st).1 hm
    obtain ⟨subtask, hsub, rfl⟩ := List.mem_map.1 hm'
    obtain ⟨k, hk⟩ := GoMap.lookup_of_mem_values _ hsub
    exact h.2 k subtask hk

/-- C19, as stated, fails: `PUT /api/stories/s1/status` with body `{"status":"ARCHIVED"}`
is answered 200, the store after it is one the program can be in, the stored story
`s1` has status `ARCHIVED`, which is none of the four constants, and `ARCHIVED` is a key
of the dashboard's `story_status`. -/
theorem status_outside_enumeration :
    (Handler.UpdateStoryStatus store2 "s1" 5 6 (some { Status := "ARCHIVED" })).2.statusCode
      = 200 ∧
    Reachable storeArchived ∧
    (storeArchived.stories.lookup "s1").map (fun story => story.Status) = some "ARCHIVED" ∧
    ¬ ValidStatus "ARCHIVED" ∧
    (∃ stats, GetDashboardStats storeArchived = .ok stats ∧
      "ARCHIVED" ∈ stats.story_status.keys) := by
  refine ⟨by decide, ?_, by decide, by decide, _, rfl, by decide⟩
  exact Reachable.step (Op.updateStoryStatus "s1" "ARCHIVED" 5 6)
    (Reachable.step (Op.createStory "s1" 2 2 storyReq)
      (Reachable.step (Op.createBacklog "b1" 1 1 { Title := "Release", Description := "" })
        Reachable.init))

theorem status_closed_for_valid_arguments_witness :
    ValidStatus (updateStory story1 StatusBlocked 3 4).Status :=
  (status_closed_for_valid_arguments
    [Op.createBacklog "b1" 1 1 { Title := "Release", Description := "" },
     Op.createStory "s1" 2 2 storyReq,
     Op.updateStoryStatus "s1" StatusBlocked 3 4]
    (by
      intro op hop
      simp only [List.mem_cons, List.mem_singleton, List.not_mem_nil, or_false] at hop
      rcases hop with rfl | rfl | rfl
      · trivial
      · trivial
      · exact Or.inr (Or.inr (Or.inr rfl)))).1
    "s1" (updateStory story1 StatusBlocked 3 4) (by decide)

/-! ## Referential integrity -/

/-- C20: in every store reachable from the empty store by any sequence of calls, the
`BacklogID` of every stored story is a key of the backlogs map and the `StoryID` of
every stored subtask is a key of the stories map. -/
theorem referential_integrity (s : Service) (hs : Reachable s) :
    (∀ k story, s.stories.lookup k = some story → story.BacklogID ∈ s.backlogs.keys) ∧
    (∀ k subtask, s.subtasks.lookup k = some subtask → subtask.StoryID ∈ s.stories.keys) := by
  have h : RefInt s := by
    induction hs with
    | init => exact ⟨GoMap.all_empty _, GoMap.all_empty _⟩
    | step op _ ih => exact refInt_apply _ op ih
  exact ⟨fun k story hl => h.1 k story hl, fun k subtask hl => h.2 k subtask hl⟩

theorem referential_integrity_witness :
    (∀ k story, store3.stories.lookup k = some story →
      story.BacklogID ∈ store3.backlogs.keys) ∧
    (∀ k subtask, store3.subtasks.lookup k = some subtask →
      subtask.StoryID ∈ store3.stories.keys) :=
  referential_integrity store3
    (Reachable.step (Op.createSubTask "t1" 3 3 subTaskReq)
      (Reachable.step (Op.createStory "s1" 2 2 storyReq)
        (Reachable.step (Op.createBacklog "b1" 1 1 { Title := "Release", Description := "" })
          Reachable.init)))


/-! ## The histograms add up -/

/-- C21: in the result of `GetDashboardStats`, the values of the `story_status` histogram
sum to `total_stories` and the values of the `subtask_status` histogram sum to
`total_subtasks`. -/
theorem dashboard_histograms_sum (s : Service) :
    ∃ stats, GetDashboardStats s = .ok stats ∧
      stats.story_status.values.sum = stats.total_stories ∧
      stats.subtask_status.values.sum = stats.total_subtasks := by
  refine ⟨_, rfl, ?_, ?_⟩
  · show (List.foldl incr GoMap.empty _).values.sum = s.stories.len
    rw [sum_values_histogram]
    simp only [GoMap.values, GoMap.len, List.length_map]
  · show (List.foldl incr GoMap.empty _).values.sum = s.subtasks.len
    rw [sum_values_histogram]
    simp only [GoMap.values, GoMap.len, List.length_map]


/-! ## Reading back what was created -/

/-- C22: in every store the program can be in, when `CreateStory(req)` succeeds with a
new id and returns `story`, then in the resulting store `GetStory(story.ID)` succeeds
and returns `story` itself, which has no subtasks; `story` occurs exactly once in the
result of `GetStoriesByBacklog(req.BacklogID)` and in the `Stories` of
`GetBacklog(req.BacklogID)`; and for every other backlog id `GetStoriesByBacklog` returns
what it returned before, up to order.  Likewise when `CreateSubTask(req)` succeeds with
a new id and returns `subtask`: `GetSubTask(subtask.ID)` returns `subtask`, which occurs
exactly once in `GetSubTasksByStory(req.StoryID)`, and for every other story id
`GetSubTasksByStory` returns what it returned before, up to order. -/
theorem create_get_round_trip (s : Service) (hs : Reachable s) (uuid : String)
    (now1 now2 : Time) :
    (∀ (req : CreateStoryRequest) (story : Story), uuid ∉ s.stories.keys →
      (CreateStory s uuid now1 now2 req).2 = .ok story →
      (GetStory (CreateStory s uuid now1 now2 req).1 story.ID).2 = .ok story ∧
      story.SubTasks = [] ∧
      (∃ l, GetStoriesByBacklog (CreateStory s uuid now1 now2 req).1 req.BacklogID = .ok l ∧
        l.count story = 1) ∧
      (∃ backlog,
        (GetBacklog (CreateStory s uuid now1 now2 req).1 req.BacklogID).2 = .ok backlog ∧
        backlog.Stories.count story = 1) ∧
      (∀ b : String, b ≠ req.BacklogID → ∃ l₁ l₀ l',
        GetStoriesByBacklog (CreateStory s uuid now1 now2 req).1 b = .ok l₁ ∧
        GetStoriesByBacklog s b = .ok l₀ ∧
        List.Perm l₁ l' ∧ List.Forall₂ Story.SameUpToOrder l' l₀)) ∧
    (∀ (req : CreateSubTaskRequest) (subtask : SubTask), uuid ∉ s.subtasks.keys →
      (CreateSubTask s uuid now1 now2 req).2 = .ok subtask →
      GetSubTask (CreateSubTask s uuid now1 now2 req).1 subtask.ID = .ok subtask ∧
      (∃ l, GetSubTasksByStory (CreateSubTask s uuid now1 now2 req).1 req.StoryID = .ok l ∧
        l.count subtask = 1) ∧
      (∀ sid : String, sid ≠ req.StoryID → ∃ l₁ l₀,
        GetSubTasksByStory (CreateSubTask s uuid now1 now2 req).1 sid = .ok l₁ ∧
        GetSubTasksByStory s sid = .ok l₀ ∧ List.Perm l₁ l₀)) := by
  have hk := keyed_of_reachable hs
  have hr := refInt_of_reachable hs
  constructor
  · intro req story hf h
    obtain ⟨hB, hid, hb, hsub, hst⟩ := CreateStory_ok h
    rw [hst]
    have hfid : story.ID ∉ s.stories.keys := by rw [hid]; exact hf
    have hload := loadStories_store_fresh hr hf hid hsub
    have hz : ∀ id : String, (loadStories s id).count story = 0 := fun id =>
      List.count_eq_zero_of_not_mem
        (show story ∉ loadStories s id from not_mem_loadStories_fresh hk hfid id)
    refine ⟨?_, hsub, ?_, ?_, ?_⟩
    · have hl : ({ s with stories := s.stories.store uuid story } : Service).stories.lookup
          story.ID = some story := by
        rw [hid]
        exact GoMap.lookup_store_self _ _ _
      rw [GetStory_found hl]
      have e : loadSubTasks { s with stories := s.stories.store uuid story } story.ID = [] := by
        rw [hid]
        exact loadSubTasks_fresh hr hf
      show Except.ok _ = Except.ok story
      rw [e, ← hsub]
    · refine ⟨_, GetStoriesByBacklog_eq _ _, ?_⟩
      rw [hload, if_pos hb, List.count_cons_self, hz]
    · obtain ⟨backlog, hbl⟩ := (GoMap.mem_keys_iff _ _).1 hB
      have hbl' : ({ s with stories := s.stories.store uuid story } : Service).backlogs.lookup
          req.BacklogID = some backlog := hbl
      rw [GetBacklog_found hbl']
      refine ⟨_, rfl, ?_⟩
      show (loadStories _ req.BacklogID).count story = 1
      rw [hload, if_pos hb, List.count_cons_self, hz]
    · intro b hne
      have hne' : ¬ story.BacklogID = b := fun e => hne (e.symm.trans hb)
      refine ⟨_, _, loadStories s b, GetStoriesByBacklog_eq _ _, GetStoriesByBacklog_eq _ _,
        ?_, ?_⟩
      · rw [hload, if_neg hne']
      · exact List.forall₂_same.2 (fun _ _ => ⟨rfl, List.Perm.refl _⟩)
  · intro req subtask hf h
    obtain ⟨_, hid, hsid, hst⟩ := CreateSubTask_ok h
    rw [hst]
    have hvals := GoMap.values_store_fresh s.subtasks uuid subtask hf
    have hnot : ∀ sid : String,
        subtask ∉ s.subtasks.values.filter (fun x => decide (x.StoryID = sid)) := by
      intro sid hm
      have hin := keyed_subtask_ID_mem hk (List.mem_of_mem_filter hm)
      rw [hid] at hin
      exact hf hin
    refine ⟨?_, ?_, ?_⟩
    · unfold GetSubTask
      have hl : ({ s with subtasks := s.subtasks.store uuid subtask } : Service).subtasks.lookup
          subtask.ID = some subtask := by
        rw [hid]
        exact GoMap.lookup_store_self _ _ _
      rw [hl]
    · refine ⟨_, rfl, ?_⟩
      show ((s.subtasks.store uuid subtask).values.filter _).count subtask = 1
      rw [hvals, List.filter_cons_of_pos (by simpa using hsid), List.count_cons_self,
        List.count_eq_zero_of_not_mem (hnot _)]
    · intro sid hne
      have hne' : ¬ subtask.StoryID = sid := fun e => hne (e.symm.trans hsid)
      refine ⟨_, _, rfl, rfl, ?_⟩
      show List.Perm ((s.subtasks.store uuid subtask).values.filter _) _
      rw [hvals, List.filter_cons_of_neg (by simpa using hne')]

theorem create_get_round_trip_witness :
    ((GetStory (CreateStory store1 "s1" 2 2 storyReq).1 story1.ID).2 = .ok story1 ∧
      story1.SubTasks = [] ∧
      (∃ l, GetStoriesByBacklog (CreateStory store1 "s1" 2 2 storyReq).1 storyReq.BacklogID
          = .ok l ∧ l.count story1 = 1) ∧
      (∃ backlog,
        (GetBacklog (CreateStory store1 "s1" 2 2 storyReq).1 storyReq.BacklogID).2
          = .ok backlog ∧
        backlog.Stories.count story1 = 1) ∧
      (∀ b : String, b ≠ storyReq.BacklogID → ∃ l₁ l₀ l',
        GetStoriesByBacklog (CreateStory store1 "s1" 2 2 storyReq).1 b = .ok l₁ ∧
        GetStoriesByBacklog store1 b = .ok l₀ ∧
        List.Perm l₁ l' ∧ List.Forall₂ Story.SameUpToOrder l' l₀)) ∧
    (GetSubTask (CreateSubTask store2 "t1" 3 3 subTaskReq).1 subtask1.ID = .ok subtask1 ∧
      (∃ l, GetSubTasksByStory (CreateSubTask store2 "t1" 3 3 subTaskReq).1 subTaskReq.StoryID
          = .ok l ∧ l.count subtask1 = 1) ∧
      (∀ sid : String, sid ≠ subTaskReq.StoryID → ∃ l₁ l₀,
        GetSubTasksByStory (CreateSubTask store2 "t1" 3 3 subTaskReq).1 sid = .ok l₁ ∧
        GetSubTasksByStory store2 sid = .ok l₀ ∧ List.Perm l₁ l₀)) :=
  ⟨(create_get_round_trip store1
      (Reachable.step (Op.createBacklog "b1" 1 1 { Title := "Release", Description := "" })
        Reachable.init) "s1" 2 2).1 storyReq story1 (by decide) rfl,
   (create_get_round_trip store2
      (Reachable.step (Op.createStory "s1" 2 2 storyReq)
        (Reachable.step (Op.createBacklog "b1" 1 1 { Title := "Release", Description := "" })
          Reachable.init)) "t1" 3 3).2 subTaskReq subtask1 (by decide) rfl⟩


end GolangBaseline
